import Mathlib

/-!
Shallow embedding of the gorepos configuration-graph core (package graph):
the node/relationship data model, the indexed graph container, the builder
that expands an include hierarchy into a graph, and the projection /
query helpers.  Definitions mirror the Go source (pkg/graph/builder.go and
the graph model/impl files) function by function; theorems check the
specification's claims against them.

Modelling conventions, applied throughout:
* Go strings are Lean `String`s; Go's byte-wise string order coincides with
  code-point order for valid UTF-8, embedded below as `strLtL` / `strLe`.
* Go maps are association lists in insertion order; map assignment is
  `mapInsert` (overwrite or append).  Go's map iteration order is
  unspecified; the model fixes it to insertion order.
* Go errors are `Except String`; `fmt.Errorf` wrapping is string
  concatenation with the same message texts.
* Tag values (`interface{}` in Go, rendered with the default format verb
  when building tag IDs) are modelled as the rendered strings directly.
* The sha-256 path hash used for config-node IDs is an abstract parameter
  `hash : String → String`; only its determinism matters to any claim.
-/

namespace GoRepos

/-- Byte-wise lexicographic strict order on character lists, mirroring Go's
built-in string comparison (UTF-8 byte order equals code-point order). -/
def strLtL : List Char → List Char → Bool
  | _, [] => false
  | [], _ :: _ => true
  | a :: as, b :: bs =>
    if a.toNat < b.toNat then true
    else if b.toNat < a.toNat then false
    else strLtL as bs

/-- Go's `a <= b` on strings. -/
def strLe (a b : String) : Bool := !(strLtL b.data a.data)

/-- The order `strLe` as a decidable relation, for use with sorting. -/
def strLeP (a b : String) : Prop := strLe a b = true

instance : DecidableRel strLeP := fun a b =>
  inferInstanceAs (Decidable (strLe a b = true))

theorem strLtL_nil_right : ∀ a : List Char, strLtL a [] = false
  | [] => rfl
  | _ :: _ => rfl

theorem strLtL_irrefl : ∀ a : List Char, strLtL a a = false
  | [] => rfl
  | a :: as => by
    simp only [strLtL]
    rw [if_neg (lt_irrefl _), if_neg (lt_irrefl _)]
    exact strLtL_irrefl as

theorem strLtL_trans : ∀ a b c : List Char,
    strLtL a b = true → strLtL b c = true → strLtL a c = true := by
  intro a
  induction a with
  | nil =>
    intro b c h1 h2
    cases c with
    | nil => rw [strLtL_nil_right] at h2; exact absurd h2 (by simp)
    | cons x xs => rfl
  | cons a as ih =>
    intro b c h1 h2
    cases b with
    | nil => rw [strLtL_nil_right] at h1; exact absurd h1 (by simp)
    | cons b bs =>
      cases c with
      | nil => rw [strLtL_nil_right] at h2; exact absurd h2 (by simp)
      | cons c cs =>
        simp only [strLtL] at h1 h2 ⊢
        by_cases hab : a.toNat < b.toNat
        · by_cases hbc : b.toNat < c.toNat
          · rw [if_pos (by omega)]
          · rw [if_neg hbc] at h2
            by_cases hcb : c.toNat < b.toNat
            · rw [if_pos hcb] at h2; exact absurd h2 (by simp)
            · rw [if_pos (by omega)]
        · rw [if_neg hab] at h1
          by_cases hba : b.toNat < a.toNat
          · rw [if_pos hba] at h1; exact absurd h1 (by simp)
          · rw [if_neg hba] at h1
            by_cases hbc : b.toNat < c.toNat
            · rw [if_pos (by omega)]
            · rw [if_neg hbc] at h2
              by_cases hcb : c.toNat < b.toNat
              · rw [if_pos hcb] at h2; exact absurd h2 (by simp)
              · rw [if_neg hcb] at h2
                rw [if_neg (show ¬ a.toNat < c.toNat from by omega),
                  if_neg (show ¬ c.toNat < a.toNat from by omega)]
                exact ih bs cs h1 h2

theorem strLtL_asymm (a b : List Char) (h : strLtL a b = true) :
    strLtL b a = false := by
  by_contra hb
  simp only [Bool.not_eq_false] at hb
  exact absurd (strLtL_trans a b a h hb) (by simp [strLtL_irrefl])

theorem strLtL_total : ∀ a b : List Char,
    strLtL a b = true ∨ strLtL b a = true ∨ a = b
  | [], [] => Or.inr (Or.inr rfl)
  | [], _ :: _ => Or.inl rfl
  | _ :: _, [] => Or.inr (Or.inl rfl)
  | a :: as, b :: bs => by
    by_cases h1 : a.toNat < b.toNat
    · exact Or.inl (by simp [strLtL, h1])
    · by_cases h2 : b.toNat < a.toNat
      · exact Or.inr (Or.inl (by simp [strLtL, h2, h1]))
      · have hab : a = b := Char.ext (UInt32.ext (by
          simp only [Char.toNat] at h1 h2; omega))
        rcases strLtL_total as bs with h | h | h
        · exact Or.inl (by simp [strLtL, h1, h2, h])
        · exact Or.inr (Or.inl (by subst hab; simp [strLtL, h1, h]))
        · exact Or.inr (Or.inr (by rw [hab, h]))

instance : IsTotal String strLeP := by
  constructor
  intro a b
  by_cases h : strLtL b.data a.data = true
  · right
    simp [strLeP, strLe, strLtL_asymm _ _ h]
  · left
    simp only [strLeP, strLe, Bool.not_eq_true] at h ⊢
    simp [h]

instance : IsTrans String strLeP := by
  constructor
  intro a b c hab hbc
  simp only [strLeP, strLe, Bool.not_eq_true', Bool.not_eq_true] at hab hbc ⊢
  by_contra hca
  simp only [Bool.not_eq_false] at hca
  rcases strLtL_total b.data c.data with h | h | h
  · exact absurd (strLtL_trans _ _ _ h hca) (by simp [hab])
  · exact absurd h (by simp [hbc])
  · rw [h] at hab
    exact absurd hca (by simp [hab])

/-- Go's `sort.Strings`: ascending byte-wise sort.  Any comparison sort
yields the same list (a sorted permutation; equal strings are identical),
so insertion sort is extensionally the same function. -/
def sortStrings (l : List String) : List String := List.insertionSort strLeP l

/-- Go's `strings.Join(parts, "/")`. -/
def joinSlash : List String → String
  | [] => ""
  | [s] => s
  | s :: r :: rest => s ++ "/" ++ joinSlash (r :: rest)

/-- Go's `strings.HasPrefix s p`, via the character lists. -/
def hasPfx (s p : String) : Bool := p.data.isPrefixOf s.data

/-- Go's `strings.HasSuffix s p`, via the character lists. -/
def hasSfx (s p : String) : Bool := p.data.isSuffixOf s.data

/-- Go's `strings.Split(s, "/")`: split into segments at every slash. -/
def splitSlashGo : List Char → List Char → List String
  | acc, [] => [String.mk acc.reverse]
  | acc, c :: rest =>
    if c = '/' then String.mk acc.reverse :: splitSlashGo [] rest
    else splitSlashGo (c :: acc) rest

/-- Split a string at slashes (Go `strings.Split(s, "/")`). -/
def splitSlash (s : String) : List String := splitSlashGo [] s.data

/-- Go's `strings.ReplaceAll(s, "/", "_")`. -/
def sanitizeScope (s : String) : String :=
  String.mk (s.data.map fun c => if c = '/' then '_' else c)

/-- Go map assignment `m[k] = v`: overwrite the binding if the key is
present, otherwise append a new binding. -/
def mapInsert {α : Type} : List (String × α) → String → α → List (String × α)
  | [], k, v => [(k, v)]
  | (k0, v0) :: rest, k, v =>
    if k0 = k then (k0, v) :: rest else (k0, v0) :: mapInsert rest k v

/-- Node types (graph model).  `template` is declared in Go but never
constructed by the builder. -/
inductive NodeType
  | root
  | config
  | repository
  | group
  | template
  | tag
  | label
deriving DecidableEq

/-- Relationship types (graph model). -/
inductive RelationType
  | parent_child
  | includes
  | defines
  | inherits
  | depends_on
  | triggers
  | tagged_with
  | labeled_with
deriving DecidableEq

/-- A repository record from a configuration file (pkg/types).  `commands`
and `environment` are omitted: the graph core never reads them.  Tag values
are the rendered strings (Go stores `interface{}` and renders with the
default format verb when building tag-node IDs). -/
structure Repository where
  name : String
  path : String := ""
  url : String := ""
  branch : String := ""
  tags : List (String × String) := []
  labels : List String := []
  disabled : Bool := false
deriving DecidableEq

/-- Global settings of a configuration file.  `credentials` is omitted:
the graph core never reads it.  `timeout` is Go's duration in seconds. -/
structure GlobalConfig where
  basePath : String := ""
  workers : Int := 0
  timeout : Int := 0
  environment : List (String × String) := []
  tags : List (String × String) := []
  labels : List String := []
deriving DecidableEq

/-- A parsed configuration file (pkg/types `Config`). -/
structure Config where
  version : String := "1.0"
  includes : List String := []
  global : GlobalConfig := {}
  repositories : List Repository := []
  groups : List (String × List String) := []
  templates : List (String × String) := []
deriving DecidableEq

/-- Group payload of a group node. -/
structure GroupDefinition where
  name : String
  explicitRepos : List String
  inheritedRepos : List String
  isEmpty : Bool
deriving DecidableEq

/-- Tag payload of a tag node. -/
structure TagDefinition where
  name : String
  value : String
  scope : String
  sourceType : String
deriving DecidableEq

/-- Label payload of a label node. -/
structure LabelDefinition where
  name : String
  scope : String
  sourceType : String
deriving DecidableEq

/-- A graph node.  The Go struct's `Parent`/`Children` pointers are not
stored: the structural tree is modelled by the `addChild` field computation
together with the `Desc` descendant relation.  The `Properties`,
`Templates` and `Variables` extension maps are omitted: no claim about
the graph core reads them back. -/
structure GraphNode where
  id : String
  type : NodeType
  name : String
  level : Nat := 0
  path : List String := []
  fullPath : String := ""
  tags : List String := []
  isDerived : Bool := false
  isExplicit : Bool := true
  sourceConfig : String := ""
  config : Option Config := none
  repository : Option Repository := none
  group : Option GroupDefinition := none
  tag : Option TagDefinition := none
  label : Option LabelDefinition := none
deriving DecidableEq

/-- A directed, typed relationship; `fromId`/`toId` mirror FromID/ToID. -/
structure Relationship where
  id : String
  fromId : String
  toId : String
  type : RelationType
deriving DecidableEq

/-- The aggregate graph.  `nodes` and `relationships` model the primary ID
maps as insertion-ordered association lists (keys are the `id` fields).
`allRepositories` / `allGroups` are the two name caches kept by `AddNode`
and rebuilt by `BuildIndexes`.  The by-type/by-level/by-path/by-tag and
relationship indexes are modelled as derived functions below: `AddNode`
maintains them by appending, so they always equal the corresponding
filter of the insertion-ordered primary list. -/
structure RepositoryGraph where
  nodes : List GraphNode := []
  relationships : List Relationship := []
  allRepositories : List (String × GraphNode) := []
  allGroups : List (String × GraphNode) := []
deriving DecidableEq

/-- `NewRepositoryGraphImpl`: the empty graph. -/
def emptyGraph : RepositoryGraph := {}

/-- `GetNode`: look a node up by ID (`nil` becomes `none`). -/
def getNode (g : RepositoryGraph) (id : String) : Option GraphNode :=
  g.nodes.find? fun n => n.id == id

/-- `GetNodesByType`: the by-type index.  `AddNode` maintains it by
appending each added node, so it equals the type filter of the
insertion-ordered node list. -/
def getNodesByType (g : RepositoryGraph) (t : NodeType) : List GraphNode :=
  g.nodes.filter fun n => n.type == t

/-- `AddNode`: fail with a duplicate-ID error if the ID exists, otherwise
insert the node and update the by-type caches for repositories/groups. -/
def addNode (g : RepositoryGraph) (node : GraphNode) :
    Except String RepositoryGraph :=
  if g.nodes.any fun n => n.id == node.id then
    .error ("node with ID " ++ node.id ++ " already exists")
  else
    .ok { g with
      nodes := g.nodes ++ [node]
      allRepositories :=
        if node.type == .repository then
          mapInsert g.allRepositories node.name node
        else g.allRepositories
      allGroups :=
        if node.type == .group then
          mapInsert g.allGroups node.name node
        else g.allGroups }

/-- `AddRelationship`: fail with a duplicate-ID error if the relationship
ID exists, otherwise append it. -/
def addRelationship (g : RepositoryGraph) (rel : Relationship) :
    Except String RepositoryGraph :=
  if g.relationships.any fun r => r.id == rel.id then
    .error ("relationship with ID " ++ rel.id ++ " already exists")
  else
    .ok { g with relationships := g.relationships ++ [rel] }

/-- One step of the `BuildIndexes` cache rebuild. -/
def rebuildCacheStep (t : NodeType) (acc : List (String × GraphNode))
    (n : GraphNode) : List (String × GraphNode) :=
  if n.type == t then mapInsert acc n.name n else acc

/-- `BuildIndexes`: discard and rebuild the name caches from the primary
node map (iteration order: insertion order).  The derived-function indexes
(`getNodesByType` etc.) need no state. -/
def buildIndexes (g : RepositoryGraph) : RepositoryGraph :=
  { g with
    allRepositories := g.nodes.foldl (rebuildCacheStep .repository) []
    allGroups := g.nodes.foldl (rebuildCacheStep .group) [] }

/-- `ValidateGraph`, endpoint part: every relationship's endpoints must
exist.  (The second check, a DFS over the `Children` pointers for
structural cycles, concerns state not representable here — the functional
model has no back-pointers — and no claim depends on it.) -/
def validateEndpoints (g : RepositoryGraph) :
    List Relationship → Except String Unit
  | [] => .ok ()
  | rel :: rest =>
    if (getNode g rel.fromId).isNone then
      .error ("relationship " ++ rel.id ++
        " references non-existent from node " ++ rel.fromId)
    else if (getNode g rel.toId).isNone then
      .error ("relationship " ++ rel.id ++
        " references non-existent to node " ++ rel.toId)
    else validateEndpoints g rest

/-- `ValidateGraph` over the modelled state. -/
def validateGraph (g : RepositoryGraph) : Except String Unit :=
  validateEndpoints g g.relationships

/-- `GetPathString`: the node's full path, computed from `path` when the
`fullPath` field is still empty (the Go method also caches the computed
value; the cache is observationally irrelevant). -/
def getPathString (n : GraphNode) : String :=
  if n.fullPath == "" then
    let s := joinSlash n.path
    if s == "" then "root" else s
  else n.fullPath

/-- `IsInScope`: scope test used for group inheritance and scoped
repository listing. -/
def isInScope (n scopeNode : GraphNode) : Bool :=
  if scopeNode.type == .root then true
  else
    let scopePath := getPathString scopeNode
    let nodePath := getPathString n
    if scopePath == "root" then nodePath == "root"
    else nodePath == scopePath || hasPfx nodePath (scopePath ++ "/")

/-- `AddChild`: derive the child's level, path and full path from the
parent (the single place these fields are derived).  The Go method also
appends the child to `parent.Children` and sets the back-pointer; the
resulting reachability is modelled by `Desc`. -/
def addChild (parent child : GraphNode) : GraphNode :=
  let path := parent.path ++ (if parent.type == .root then [] else [parent.name])
  let fp := joinSlash path
  { child with
    level := parent.level + 1
    path := path
    fullPath := if fp == "" then "root" else fp }

/-- `b` is reachable from `a` through the children chain built by
`AddChild`: either a direct child attached to `a`, or a child attached to
some node already reachable from `a`. -/
inductive Desc : GraphNode → GraphNode → Prop
  | child (a c : GraphNode) : Desc a (addChild a c)
  | step (a b c : GraphNode) : Desc a b → Desc a (addChild b c)

/-- `extractHierarchyPath`: the path segments after the `configs`
directory, with a trailing `.yaml` file name dropped.  Paths are already
slash-separated (the Go code first normalises separators). -/
def extractHierarchyPath (configPath : String) : List String :=
  let segments := splitSlash configPath
  match segments.findIdx? (· == "configs") with
  | none => []
  | some i =>
    let remaining := segments.drop (i + 1)
    match remaining.getLast? with
    | some last =>
      if hasSfx last ".yaml" then remaining.dropLast else remaining
    | none => remaining

/-- `createConfigNode`: build a config node for an absolute file path.
`hash` abstracts the first eight hex characters of the path's sha-256
digest; only its determinism is relied upon.  The `Path` set here from the
hierarchy segments is provisional — `AddChild` recomputes it. -/
def createConfigNode (hash : String → String) (configPath : String)
    (config : Config) : GraphNode :=
  let nodeID := "config_" ++ hash configPath
  let hierarchyPath := extractHierarchyPath configPath
  let nodeName := match hierarchyPath.getLast? with
    | some last => last
    | none => "root"
  { id := nodeID
    type := .config
    name := nodeName
    config := some config
    path := hierarchyPath.dropLast
    isDerived := false
    isExplicit := true
    sourceConfig := nodeID }

/-- A fresh relationship record (`NewRelationship`). -/
def mkRelationship (id : String) (fromNode toNode : GraphNode)
    (t : RelationType) : Relationship :=
  { id := id, fromId := fromNode.id, toId := toNode.id, type := t }

/-- One step of the hierarchy expansion, structurally recursive on the
fuel so that concrete builds reduce definitionally.  A `.inl path` input
is Go's `buildConfigHierarchy` call for one absolute path: recursion-stack
cycle check, load, config-node creation and attachment, then its include
list; a `.inr incs` input is the include loop, wrapping each include's
error with the include path.  `stack` is the set of absolute paths on the
current recursion stack (Go keeps it in `b.visited`, set on entry and
cleared by `defer` on exit).  `load` abstracts the YAML loading
collaborator; include paths are modelled as already absolute.  `fuel`
bounds the recursion (Go recursion is unbounded; every theorem supplies
ample fuel). -/
def buildStep (load : String → Option Config) (hash : String → String) :
    Nat → List String → GraphNode → RepositoryGraph →
    Sum String (List String) → Except String RepositoryGraph
  | fuel, stack, parentNode, g, .inl path =>
    if stack.contains path then
      .error ("circular dependency detected: " ++ path)
    else
      match fuel with
      | 0 => .error ("recursion limit exceeded at " ++ path)
      | fuel' + 1 =>
        match load path with
        | none => .error ("failed to load config " ++ path ++ ": load error")
        | some config =>
          let configNode :=
            addChild parentNode (createConfigNode hash path config)
          match addNode g configNode with
          | .error e => .error ("failed to add config node: " ++ e)
          | .ok g1 =>
            let rel := mkRelationship
              ("pc_" ++ parentNode.id ++ "_" ++ configNode.id)
              parentNode configNode .parent_child
            match addRelationship g1 rel with
            | .error e =>
              .error ("failed to add parent-child relationship: " ++ e)
            | .ok g2 =>
              buildStep load hash fuel' (path :: stack) configNode g2
                (.inr config.includes)
  | _, _, _, g, .inr [] => .ok g
  | fuel, stack, parentNode, g, .inr (inc :: rest) =>
    match fuel with
    | 0 => .error ("recursion limit exceeded at " ++ inc)
    | fuel' + 1 =>
      match buildStep load hash fuel' stack parentNode g (.inl inc) with
      | .error e =>
        .error ("failed to build included hierarchy " ++ inc ++ ": " ++ e)
      | .ok g1 => buildStep load hash fuel' stack parentNode g1 (.inr rest)

/-- `buildConfigHierarchy`: depth-first include expansion for one root
path (the `.inl` entry point of `buildStep`). -/
def buildConfigHierarchy (load : String → Option Config)
    (hash : String → String) (fuel : Nat) (stack : List String)
    (parentNode : GraphNode) (g : RepositoryGraph) (path : String) :
    Except String RepositoryGraph :=
  buildStep load hash fuel stack parentNode g (.inl path)

/-- `createRepositoryNode`: repository node with ID `repo_<name>`, placed
at its owning config node's scope. -/
def createRepositoryNode (repo : Repository) (configNode : GraphNode) :
    GraphNode :=
  let path := configNode.path ++
    (if configNode.name == "root" then [] else [configNode.name])
  let fp := joinSlash path
  { id := "repo_" ++ repo.name
    type := .repository
    name := repo.name
    repository := some repo
    path := path
    fullPath := if fp == "" then "root" else fp
    level := path.length
    isDerived := false
    isExplicit := true
    sourceConfig := configNode.id }

/-- The inner repository loop of `processRepositories` for one config
node's repository records. -/
def processRepoList (cfgNode : GraphNode) :
    RepositoryGraph → List Repository → Except String RepositoryGraph
  | g, [] => .ok g
  | g, repo :: rest =>
    let repoNode := createRepositoryNode repo cfgNode
    match addNode g repoNode with
    | .error e =>
      .error ("failed to add repository node " ++ repoNode.id ++ ": " ++ e)
    | .ok g1 =>
      let rel := mkRelationship ("def_" ++ cfgNode.id ++ "_" ++ repoNode.id)
        cfgNode repoNode .defines
      match addRelationship g1 rel with
      | .error e => .error ("failed to add defines relationship: " ++ e)
      | .ok g2 => processRepoList cfgNode g2 rest

/-- The outer config loop of `processRepositories`. -/
def processConfigRepos :
    RepositoryGraph → List GraphNode → Except String RepositoryGraph
  | g, [] => .ok g
  | g, cfgNode :: rest =>
    match cfgNode.config with
    | none => processConfigRepos g rest
    | some c =>
      match processRepoList cfgNode g c.repositories with
      | .error e => .error e
      | .ok g1 => processConfigRepos g1 rest

/-- `processRepositories`: derive a repository node plus a `defines`
relationship for every repository record of every config node. -/
def processRepositories (g : RepositoryGraph) : Except String RepositoryGraph :=
  processConfigRepos g (getNodesByType g .config)

/-- `calculateInheritedRepos`: names of every repository node in scope of
the group node, ascending (`sort.Strings`). -/
def calculateInheritedRepos (scopeNode : GraphNode) (g : RepositoryGraph) :
    List String :=
  sortStrings (((getNodesByType g .repository).filter
    fun repoNode => isInScope repoNode scopeNode).map fun n => n.name)

/-- The group-node ID scheme of `createGroupNode`: the group name prefixed
with the sanitized scope path of the defining config node. -/
def groupIdFor (configNode : GraphNode) (groupName : String) : String :=
  "group_" ++ sanitizeScope (getPathString configNode) ++ "_" ++ groupName

/-- `createGroupNode`: group node at its config node's scope; an ID that
incorporates the sanitized scope path; inherited members computed only for
an empty explicit list. -/
def createGroupNode (groupName : String) (repos : List String)
    (configNode : GraphNode) (g : RepositoryGraph) : GraphNode :=
  let groupID := groupIdFor configNode groupName
  let path := configNode.path ++
    (if configNode.name == "root" then [] else [configNode.name])
  let fp := joinSlash path
  let base : GraphNode :=
    { id := groupID
      type := .group
      name := groupName
      path := path
      fullPath := if fp == "" then "root" else fp
      level := path.length }
  let isEmpty := repos.isEmpty
  let groupDef : GroupDefinition :=
    { name := groupName
      explicitRepos := repos
      inheritedRepos := if isEmpty then calculateInheritedRepos base g else []
      isEmpty := isEmpty }
  { base with
    group := some groupDef
    isDerived := true
    isExplicit := false
    sourceConfig := configNode.id
    tags := if isEmpty then ["inherited", "derived"] else ["explicit", "derived"] }

/-- The member loop of `processGroups`: an `includes` relationship from the
group to each member repository that resolves in the name cache. -/
def addGroupIncludes (groupNode : GraphNode) :
    RepositoryGraph → List String → Except String RepositoryGraph
  | g, [] => .ok g
  | g, repoName :: rest =>
    match g.allRepositories.lookup repoName with
    | none => addGroupIncludes groupNode g rest
    | some repoNode =>
      let rel := mkRelationship ("inc_" ++ groupNode.id ++ "_" ++ repoNode.id)
        groupNode repoNode .includes
      match addRelationship g rel with
      | .error e => .error ("failed to add includes relationship: " ++ e)
      | .ok g1 => addGroupIncludes groupNode g1 rest

/-- The group loop of `processGroups` for one config node's group map. -/
def processGroupList (cfgNode : GraphNode) :
    RepositoryGraph → List (String × List String) →
    Except String RepositoryGraph
  | g, [] => .ok g
  | g, (groupName, repos) :: rest =>
    let groupNode := createGroupNode groupName repos cfgNode g
    match addNode g groupNode with
    | .error e =>
      .error ("failed to add group node " ++ groupNode.id ++ ": " ++ e)
    | .ok g1 =>
      let rel := mkRelationship ("def_" ++ cfgNode.id ++ "_" ++ groupNode.id)
        cfgNode groupNode .defines
      match addRelationship g1 rel with
      | .error e => .error ("failed to add defines relationship: " ++ e)
      | .ok g2 =>
        let allRepos := (match groupNode.group with
          | some gd => gd.explicitRepos ++ gd.inheritedRepos
          | none => [])
        match addGroupIncludes groupNode g2 allRepos with
        | .error e => .error e
        | .ok g3 => processGroupList cfgNode g3 rest

/-- The outer config loop of `processGroups`. -/
def processConfigGroups :
    RepositoryGraph → List GraphNode → Except String RepositoryGraph
  | g, [] => .ok g
  | g, cfgNode :: rest =>
    match cfgNode.config with
    | none => processConfigGroups g rest
    | some c =>
      match processGroupList cfgNode g c.groups with
      | .error e => .error e
      | .ok g1 => processConfigGroups g1 rest

/-- `processGroups`: derive a group node, a `defines` relationship and
member `includes` relationships for every group definition. -/
def processGroups (g : RepositoryGraph) : Except String RepositoryGraph :=
  processConfigGroups g (getNodesByType g .config)

/-- The tag-node ID `tag_<name>_<value>` (`fmt.Sprintf("tag_%s_%v", ...)`). -/
def tagId (name value : String) : String := "tag_" ++ name ++ "_" ++ value

/-- The label-node ID `label_<name>`. -/
def labelId (name : String) : String := "label_" ++ name

/-- `createOrGetTagNode`: reuse the tag node recorded in the build-local
dedup map under the ID keyed by name and rendered value, or create and
record a fresh one. -/
def createOrGetTagNode (tagName tagValue scope : String)
    (sourceNode : GraphNode) (createdTags : List (String × GraphNode)) :
    GraphNode × List (String × GraphNode) :=
  let tid := tagId tagName tagValue
  match createdTags.lookup tid with
  | some existing => (existing, createdTags)
  | none =>
    let tagNode : GraphNode :=
      { id := tid
        type := .tag
        name := tagName
        tag := some (TagDefinition.mk tagName tagValue scope "explicit")
        isDerived := false
        isExplicit := true
        sourceConfig := sourceNode.id }
    (tagNode, mapInsert createdTags tid tagNode)

/-- `createOrGetLabelNode`: like `createOrGetTagNode`, keyed by name. -/
def createOrGetLabelNode (labelName scope : String) (sourceNode : GraphNode)
    (createdLabels : List (String × GraphNode)) :
    GraphNode × List (String × GraphNode) :=
  let lid := labelId labelName
  match createdLabels.lookup lid with
  | some existing => (existing, createdLabels)
  | none =>
    let labelNode : GraphNode :=
      { id := lid
        type := .label
        name := labelName
        label := some (LabelDefinition.mk labelName scope "explicit")
        isDerived := false
        isExplicit := true
        sourceConfig := sourceNode.id }
    (labelNode, mapInsert createdLabels lid labelNode)

/-- `createTagRelationship`: a `tagged_with` edge; the returned error is
up to the caller to handle (the tag/label pass drops it). -/
def createTagRelationship (g : RepositoryGraph) (fromNode tagNode : GraphNode) :
    Except String RepositoryGraph :=
  addRelationship g (mkRelationship ("tagged_" ++ fromNode.id ++ "_" ++ tagNode.id)
    fromNode tagNode .tagged_with)

/-- `createLabelRelationship`: a `labeled_with` edge. -/
def createLabelRelationship (g : RepositoryGraph)
    (fromNode labelNode : GraphNode) : Except String RepositoryGraph :=
  addRelationship g (mkRelationship ("labeled_" ++ fromNode.id ++ "_" ++ labelNode.id)
    fromNode labelNode .labeled_with)

/-- Tag loop of `processTagsAndLabels` for one entity's tag map.  `errTxt`
is the call site's error wrapping text ("global" vs "repository" phase).
The statement `b.createTagRelationship(graph, ..., tagNode)` in the Go
source discards the returned error, modelled by falling back to the
unchanged graph. -/
def processEntityTags (errTxt scope : String) (src : GraphNode) :
    RepositoryGraph → List (String × GraphNode) → List (String × String) →
    Except String (RepositoryGraph × List (String × GraphNode))
  | g, created, [] => .ok (g, created)
  | g, created, (tagName, tagValue) :: rest =>
    let res := createOrGetTagNode tagName tagValue scope src created
    let tagNode := res.1
    let step : Except String RepositoryGraph :=
      if (getNode g tagNode.id).isNone then
        match addNode g tagNode with
        | .error e => .error (errTxt ++ tagNode.id ++ ": " ++ e)
        | .ok g1 => .ok g1
      else .ok g
    match step with
    | .error e => .error e
    | .ok g1 =>
      let g2 := match createTagRelationship g1 src tagNode with
        | .ok gx => gx
        | .error _ => g1
      processEntityTags errTxt scope src g2 res.2 rest

/-- Label loop of `processTagsAndLabels` for one entity's label list; the
`createLabelRelationship` error is likewise discarded in the source. -/
def processEntityLabels (errTxt scope : String) (src : GraphNode) :
    RepositoryGraph → List (String × GraphNode) → List String →
    Except String (RepositoryGraph × List (String × GraphNode))
  | g, created, [] => .ok (g, created)
  | g, created, labelName :: rest =>
    let res := createOrGetLabelNode labelName scope src created
    let labelNode := res.1
    let step : Except String RepositoryGraph :=
      if (getNode g labelNode.id).isNone then
        match addNode g labelNode with
        | .error e => .error (errTxt ++ labelNode.id ++ ": " ++ e)
        | .ok g1 => .ok g1
      else .ok g
    match step with
    | .error e => .error e
    | .ok g1 =>
      let g2 := match createLabelRelationship g1 src labelNode with
        | .ok gx => gx
        | .error _ => g1
      processEntityLabels errTxt scope src g2 res.2 rest

/-- Config phase of `processTagsAndLabels`: global tags and labels of
every config node, threading the two build-local dedup maps. -/
def processTagsConfigLoop :
    RepositoryGraph → List (String × GraphNode) → List (String × GraphNode) →
    List GraphNode →
    Except String
      (RepositoryGraph × List (String × GraphNode) × List (String × GraphNode))
  | g, ct, cl, [] => .ok (g, ct, cl)
  | g, ct, cl, cfgNode :: rest =>
    match cfgNode.config with
    | none => processTagsConfigLoop g ct cl rest
    | some c =>
      match processEntityTags "failed to add global tag node " "global" cfgNode
        g ct c.global.tags with
      | .error e => .error e
      | .ok (g1, ct1) =>
        match processEntityLabels "failed to add global label node " "global"
          cfgNode g1 cl c.global.labels with
        | .error e => .error e
        | .ok (g2, cl1) => processTagsConfigLoop g2 ct1 cl1 rest

/-- Repository phase of `processTagsAndLabels`: per-repository tags and
labels read from the repository payload. -/
def processTagsRepoLoop :
    RepositoryGraph → List (String × GraphNode) → List (String × GraphNode) →
    List GraphNode →
    Except String
      (RepositoryGraph × List (String × GraphNode) × List (String × GraphNode))
  | g, ct, cl, [] => .ok (g, ct, cl)
  | g, ct, cl, repoNode :: rest =>
    match repoNode.repository with
    | none => processTagsRepoLoop g ct cl rest
    | some repo =>
      match processEntityTags "failed to add repository tag node " "repository"
        repoNode g ct repo.tags with
      | .error e => .error e
      | .ok (g1, ct1) =>
        match processEntityLabels "failed to add repository label node "
          "repository" repoNode g1 cl repo.labels with
        | .error e => .error e
        | .ok (g2, cl1) => processTagsRepoLoop g2 ct1 cl1 rest

/-- `processTagsAndLabels`: synthesize or reuse shared tag/label nodes for
config-level and repository-level tags and labels. -/
def processTagsAndLabels (g : RepositoryGraph) :
    Except String RepositoryGraph :=
  match processTagsConfigLoop g [] [] (getNodesByType g .config) with
  | .error e => .error e
  | .ok (g1, ct, cl) =>
    match processTagsRepoLoop g1 ct cl (getNodesByType g1 .repository) with
    | .error e => .error e
    | .ok (g2, _, _) => .ok g2

/-- The synthetic root node created by `BuildGraph` (level 0, empty path,
full path `root`). -/
def rootNode : GraphNode :=
  { id := "root", type := .root, name := "root", level := 0, path := [],
    fullPath := "root" }

/-- `BuildGraph`: root creation, hierarchy expansion, repository, group
and tag/label derivation, index rebuild, validation.  Any error aborts
with no graph. -/
def buildGraph (load : String → Option Config) (hash : String → String)
    (fuel : Nat) (rootPath : String) : Except String RepositoryGraph :=
  match addNode emptyGraph rootNode with
  | .error e => .error ("failed to add root node: " ++ e)
  | .ok g0 =>
    match buildConfigHierarchy load hash fuel [] rootNode g0 rootPath with
    | .error e => .error ("failed to build configuration hierarchy: " ++ e)
    | .ok g1 =>
      match processRepositories g1 with
      | .error e => .error ("failed to process repositories: " ++ e)
      | .ok g2 =>
        match processGroups g2 with
        | .error e => .error ("failed to process groups: " ++ e)
        | .ok g3 =>
          match processTagsAndLabels g3 with
          | .error e => .error ("failed to process tags and labels: " ++ e)
          | .ok g4 =>
            let g5 := buildIndexes g4
            match validateGraph g5 with
            | .error e => .error ("graph validation failed: " ++ e)
            | .ok _ => .ok g5

/-- First-occurrence deduplication with an explicit seen set (the
`repoSet` map plus append loop in `GetGroupsForDisplay`). -/
def dedupFirstAux : List String → List String → List String
  | _, [] => []
  | seen, x :: rest =>
    if seen.contains x then dedupFirstAux seen rest
    else x :: dedupFirstAux (x :: seen) rest

/-- First-occurrence deduplication of a member list. -/
def dedupFirst (l : List String) : List String := dedupFirstAux [] l

/-- Display-name computation of `GetGroupsForDisplay`: prefix the nearest
enclosing scope segment when the plain name is shared by more than one
group node and the group is not at root scope. -/
def displayNameFor (groupNodes : List GraphNode) (gn : GraphNode) : String :=
  let count := (groupNodes.filter fun n => n.name == gn.name).length
  if count > 1 && getPathString gn != "root" then
    match (splitSlash (getPathString gn)).getLast? with
    | some lastSeg =>
      if lastSeg != "root" then lastSeg ++ "-" ++ gn.name else gn.name
    | none => gn.name
  else gn.name

/-- The group loop of `GetGroupsForDisplay`, writing into the result map. -/
def getGroupsForDisplayLoop (groupNodes : List GraphNode) :
    List (String × List String) → List GraphNode → List (String × List String)
  | acc, [] => acc
  | acc, gn :: rest =>
    match gn.group with
    | none => getGroupsForDisplayLoop groupNodes acc rest
    | some gd =>
      let displayName := displayNameFor groupNodes gn
      let uniqueRepos :=
        sortStrings (dedupFirst (gd.explicitRepos ++ gd.inheritedRepos))
      if uniqueRepos.isEmpty then getGroupsForDisplayLoop groupNodes acc rest
      else
        getGroupsForDisplayLoop groupNodes
          (mapInsert acc displayName uniqueRepos) rest

/-- `GetGroupsForDisplay`: resolved member lists keyed by (possibly
scope-prefixed) display name; groups with no members are omitted. -/
def getGroupsForDisplay (g : RepositoryGraph) : List (String × List String) :=
  let groupNodes := getNodesByType g .group
  getGroupsForDisplayLoop groupNodes [] groupNodes

/-- `sort.Slice` by repository name in `GetMergedConfig`; with the
(globally unique) names any comparison sort produces this list. -/
def sortReposByName (l : List Repository) : List Repository :=
  List.insertionSort (fun a b => strLe a.name b.name = true) l

/-- The level-1 global-settings update of `GetMergedConfig` for one config
record: overwrite base path / workers / timeout when the incoming value is
non-empty (positive), then merge the environment key by key. -/
def mergeOneGlobal (glob : GlobalConfig) (c : Config) : GlobalConfig :=
  let g1 := if c.global.basePath != "" then
      { glob with basePath := c.global.basePath } else glob
  let g2 := if c.global.workers > 0 then
      { g1 with workers := c.global.workers } else g1
  let g3 := if c.global.timeout > 0 then
      { g2 with timeout := c.global.timeout } else g2
  let envNew := c.global.environment.foldl
    (fun acc kv => mapInsert acc kv.1 kv.2) g3.environment
  { g3 with environment := envNew }

/-- The global-settings/templates merge loop of `GetMergedConfig`: only
level-1 config nodes touch the global fields; template maps merge from
every config node. -/
def mergeConfigLoop :
    GlobalConfig → List (String × String) → List GraphNode →
    GlobalConfig × List (String × String)
  | glob, tmpls, [] => (glob, tmpls)
  | glob, tmpls, n :: rest =>
    match n.config with
    | none => mergeConfigLoop glob tmpls rest
    | some c =>
      let glob1 := if n.level == 1 then mergeOneGlobal glob c else glob
      let tmpls1 := c.templates.foldl
        (fun acc kv => mapInsert acc kv.1 kv.2) tmpls
      mergeConfigLoop glob1 tmpls1 rest

/-- `GetMergedConfig`: flattened configuration (repositories sorted by
name, resolved display groups, merged globals and templates). -/
def getMergedConfig (g : RepositoryGraph) : Config :=
  let repositories :=
    sortReposByName ((getNodesByType g .repository).filterMap fun n =>
      n.repository)
  let res := mergeConfigLoop
    { basePath := "", workers := 8, timeout := 300 } []
    (getNodesByType g .config)
  { version := ""
    includes := []
    global := res.1
    repositories := repositories
    groups := getGroupsForDisplay g
    templates := res.2 }

/-- The inherited-member loop of `GetRepositoriesForGroup`: resolve each
name in the repository cache and append it unless its ID was collected
already. -/
def addInheritedNodes (g : RepositoryGraph) :
    List GraphNode → List String → List GraphNode
  | acc, [] => acc
  | acc, repoName :: rest =>
    match g.allRepositories.lookup repoName with
    | none => addInheritedNodes g acc rest
    | some repoNode =>
      if acc.any fun e => e.id == repoNode.id then
        addInheritedNodes g acc rest
      else addInheritedNodes g (acc ++ [repoNode]) rest

/-- `GetRepositoriesForGroup`: resolve the first group node (in type-index
order) carrying the name, collecting its explicit then inherited members;
the loop breaks after that first match. -/
def getRepositoriesForGroup (g : RepositoryGraph) (groupName : String) :
    List GraphNode :=
  match (getNodesByType g .group).find?
    (fun n => n.name == groupName && n.group.isSome) with
  | none => []
  | some groupNode =>
    match groupNode.group with
    | none => []
    | some gd =>
      let explicitNodes := gd.explicitRepos.filterMap fun rn =>
        g.allRepositories.lookup rn
      addInheritedNodes g explicitNodes gd.inheritedRepos

end GoRepos


namespace GoRepos

/-! Spec-side definitions used to state the claims, and the concrete
scenarios the claims mention. -/

/-- The node-ID list of a graph, in insertion order. -/
def nodeIds (g : RepositoryGraph) : List String := g.nodes.map GraphNode.id

/-- All repository-record names carried by a list of config nodes, in
order (the records `processRepositories` will try to add). -/
def configRepoNames : List GraphNode → List String
  | [] => []
  | n :: rest =>
    (match n.config with
      | some c => c.repositories.map Repository.name
      | none => []) ++ configRepoNames rest

/-- All repository-record names of a graph's config nodes. -/
def allRepoRecordNames (g : RepositoryGraph) : List String :=
  configRepoNames (getNodesByType g .config)

/-- All group-node IDs a list of config nodes will produce, in order. -/
def configGroupIds : List GraphNode → List String
  | [] => []
  | n :: rest =>
    (match n.config with
      | some c => c.groups.map fun kv => groupIdFor n kv.1
      | none => []) ++ configGroupIds rest

/-- All group-node IDs a graph's config nodes will produce. -/
def allGroupIds (g : RepositoryGraph) : List String :=
  configGroupIds (getNodesByType g .config)

/-- First-non-empty-wins merge of strings, as the claim about
`GetMergedConfig` words it. -/
def firstNonEmptyStr (d : String) (l : List String) : String :=
  match l.find? (fun s => s != "") with
  | some s => s
  | none => d

/-- Last-non-empty-wins merge of strings (what the merge loop computes). -/
def lastNonEmptyStr (d : String) (l : List String) : String :=
  l.foldl (fun acc s => if s != "" then s else acc) d

/-- Last-positive-wins merge of integers. -/
def lastPosInt (d : Int) (l : List Int) : Int :=
  l.foldl (fun acc x => if x > 0 then x else acc) d

/-- The base-path values the merge loop consults: one per level-1 config
node, in order. -/
def level1BasePaths (g : RepositoryGraph) : List String :=
  (getNodesByType g .config).filterMap fun n =>
    match n.config with
    | some c => if n.level == 1 then some c.global.basePath else none
    | none => none

/-- The worker counts of level-1 config nodes, in order. -/
def level1Workers (g : RepositoryGraph) : List Int :=
  (getNodesByType g .config).filterMap fun n =>
    match n.config with
    | some c => if n.level == 1 then some c.global.workers else none
    | none => none

/-- The timeouts of level-1 config nodes, in order. -/
def level1Timeouts (g : RepositoryGraph) : List Int :=
  (getNodesByType g .config).filterMap fun n =>
    match n.config with
    | some c => if n.level == 1 then some c.global.timeout else none
    | none => none

/-- The environment maps of level-1 config nodes, in order. -/
def level1Environments (g : RepositoryGraph) : List (List (String × String)) :=
  (getNodesByType g .config).filterMap fun n =>
    match n.config with
    | some c => if n.level == 1 then some c.global.environment else none
    | none => none

/-- Scenario (C1): one root configuration, no includes, repositories
`c`, `a`, `b` (unsorted on purpose) and the empty group `everything`. -/
def cfgC1 : Config :=
  { version := "1.0"
    repositories := [{ name := "c" }, { name := "a" }, { name := "b" }]
    groups := [("everything", [])] }

/-- Scenario (C1): the loader. -/
def loadC1 : String → Option Config := fun p =>
  if p == "/main.yaml" then some cfgC1 else none

/-- Scenario (C1): the path-hash instance. -/
def hashC1 : String → String := fun p =>
  if p == "/main.yaml" then "1a2b3c4d" else "00000000"

/-- Scenario (C1): the built graph. -/
def builtC1 : Except String RepositoryGraph :=
  buildGraph loadC1 hashC1 40 "/main.yaml"

/-- Witness inputs for the general part of C1: a config node at root
scope and a graph holding two repository nodes. -/
def c1WitnessCfg : GraphNode :=
  { id := "cfg0", type := .config, name := "root", fullPath := "root" }

/-- Witness graph for the general part of C1. -/
def c1WitnessGraph : RepositoryGraph :=
  { nodes := [
      { id := "repo_b", type := .repository, name := "b", fullPath := "root" },
      { id := "repo_a", type := .repository, name := "a", fullPath := "root" }] }

/-- Counterexample nodes (C2/C5): a level-1 config node named `teams`
(its file lives under `configs/teams/`), attached to the root. -/
def c5nodeA : GraphNode :=
  addChild rootNode { id := "ca", type := .config, name := "teams" }

/-- A config node included by `c5nodeA`; its full path is `teams`. -/
def c5nodeB : GraphNode :=
  addChild c5nodeA { id := "cb", type := .config, name := "x" }

/-- A config node included by `c5nodeB`; its full path is `teams/x`. -/
def c5nodeC : GraphNode :=
  addChild c5nodeB { id := "cc", type := .config, name := "y" }

/-- Counterexample chain (C2): a level-1 config node named `root` (its
file sits directly in a `configs` directory). -/
def c2n1 : GraphNode :=
  addChild rootNode { id := "c1", type := .config, name := "root" }

/-- Level-2 config under `c2n1`; full path is the string `root`. -/
def c2n2 : GraphNode :=
  addChild c2n1 { id := "c2", type := .config, name := "x" }

/-- Level-3 config under `c2n2`; full path is `root/x`. -/
def c2n3 : GraphNode :=
  addChild c2n2 { id := "c3", type := .config, name := "y" }

/-- Counterexample scope node (C2): a group defined by the level-1 config
`c2n1`; its full path is the string `root` but it is not the root node. -/
def c2scope : GraphNode := createGroupNode "g" [] c2n1 emptyGraph

/-- Scenario (C3, cycle): `/A.yaml` includes `/B.yaml` includes `/A.yaml`. -/
def loadCyc : String → Option Config := fun p =>
  if p == "/A.yaml" then some { includes := ["/B.yaml"] }
  else if p == "/B.yaml" then some { includes := ["/A.yaml"] }
  else none

/-- Hash instance for the C3 scenarios. -/
def hashABCD : String → String := fun p =>
  if p == "/A.yaml" then "aaaaaaaa"
  else if p == "/B.yaml" then "bbbbbbbb"
  else if p == "/C.yaml" then "cccccccc"
  else if p == "/D.yaml" then "dddddddd"
  else "ffffffff"

/-- Scenario (C3, cycle): the build attempt. -/
def builtCyc : Except String RepositoryGraph :=
  buildGraph loadCyc hashABCD 40 "/A.yaml"

/-- Scenario (C3, diamond): `/A.yaml` includes `/B.yaml` and `/C.yaml`,
which both include `/D.yaml`; no true cycle. -/
def loadDia : String → Option Config := fun p =>
  if p == "/A.yaml" then some { includes := ["/B.yaml", "/C.yaml"] }
  else if p == "/B.yaml" then some { includes := ["/D.yaml"] }
  else if p == "/C.yaml" then some { includes := ["/D.yaml"] }
  else if p == "/D.yaml" then some {}
  else none

/-- Scenario (C3, diamond): the build attempt. -/
def builtDia : Except String RepositoryGraph :=
  buildGraph loadDia hashABCD 40 "/A.yaml"

/-- Scenario (C4, repo duplicate): two configs each declaring `dup`. -/
def loadC4r : String → Option Config := fun p =>
  if p == "/A.yaml" then
    some { repositories := [{ name := "dup" }], includes := ["/B.yaml"] }
  else if p == "/B.yaml" then some { repositories := [{ name := "dup" }] }
  else none

/-- Scenario (C4, repo duplicate): the build attempt. -/
def builtC4r : Except String RepositoryGraph :=
  buildGraph loadC4r hashABCD 40 "/A.yaml"

/-- Scenario (C4, same-scope groups): the root file and its direct
include both resolve to scope `root` and both define group `g`. -/
def loadC4s : String → Option Config := fun p =>
  if p == "/A.yaml" then
    some { groups := [("g", [])], includes := ["/B.yaml"] }
  else if p == "/B.yaml" then some { groups := [("g", [])] }
  else none

/-- Scenario (C4, same-scope groups): the build attempt. -/
def builtC4s : Except String RepositoryGraph :=
  buildGraph loadC4s hashABCD 40 "/A.yaml"

/-- Hash instance for the C4 sanitization-collision scenario. -/
def hashC4 : String → String := fun p =>
  if p == "/configs/a/main.yaml" then "11111111"
  else if p == "/configs/a/x_y/p.yaml" then "22222222"
  else if p == "/configs/a/x_y/z/r.yaml" then "33333333"
  else if p == "/configs/a/x/q.yaml" then "44444444"
  else if p == "/configs/a/x/y/s.yaml" then "55555555"
  else if p == "/configs/a/x/y/w/t.yaml" then "66666666"
  else "ffffffff"

/-- Scenario (C4, sanitize collision): the scopes `a/x_y` (a level-3
config) and `a/x/y` (a level-4 config) both sanitize to `a_x_y`; each
defines a group `g`. -/
def loadC4c : String → Option Config := fun p =>
  if p == "/configs/a/main.yaml" then
    some { includes := ["/configs/a/x_y/p.yaml", "/configs/a/x/q.yaml"] }
  else if p == "/configs/a/x_y/p.yaml" then
    some { includes := ["/configs/a/x_y/z/r.yaml"] }
  else if p == "/configs/a/x_y/z/r.yaml" then
    some { groups := [("g", ["r1"])] }
  else if p == "/configs/a/x/q.yaml" then
    some { includes := ["/configs/a/x/y/s.yaml"] }
  else if p == "/configs/a/x/y/s.yaml" then
    some { includes := ["/configs/a/x/y/w/t.yaml"] }
  else if p == "/configs/a/x/y/w/t.yaml" then
    some { groups := [("g", ["r2"])] }
  else none

/-- Scenario (C4, sanitize collision): the build attempt. -/
def builtC4c : Except String RepositoryGraph :=
  buildGraph loadC4c hashC4 40 "/configs/a/main.yaml"

/-- Scenario (C4, distinct scopes): group `g` is defined at scope `root`
and (as an empty group) at scope `root/w`; the sanitized scope strings
differ, so the build succeeds with two distinct group nodes. -/
def loadC4d : String → Option Config := fun p =>
  if p == "/main.yaml" then
    some { repositories := [{ name := "r" }]
           groups := [("g", ["r"])]
           includes := ["/configs/w/a.yaml"] }
  else if p == "/configs/w/a.yaml" then
    some { includes := ["/configs/w/v/b.yaml"] }
  else if p == "/configs/w/v/b.yaml" then some { groups := [("g", [])] }
  else none

/-- Hash instance for the C4 distinct-scope scenario. -/
def hashC4d : String → String := fun p =>
  if p == "/main.yaml" then "aaaa0001"
  else if p == "/configs/w/a.yaml" then "aaaa0002"
  else if p == "/configs/w/v/b.yaml" then "aaaa0003"
  else "ffffffff"

/-- Scenario (C4, distinct scopes): the build. -/
def builtC4d : Except String RepositoryGraph :=
  buildGraph loadC4d hashC4d 40 "/main.yaml"

/-- Scenario (C6): two repositories both tagged `env=prod`. -/
def loadC6 : String → Option Config := fun p =>
  if p == "/main.yaml" then
    some { repositories := [
      { name := "r1", tags := [("env", "prod")] },
      { name := "r2", tags := [("env", "prod")] }] }
  else none

/-- Scenario (C6): the build. -/
def builtC6 : Except String RepositoryGraph :=
  buildGraph loadC6 hashABCD 40 "/main.yaml"

/-- Scenario (C7): one repository whose label list repeats `x`, so the
second `labeled_with` insertion fails inside the tag/label pass. -/
def loadC7 : String → Option Config := fun p =>
  if p == "/main.yaml" then
    some { repositories := [{ name := "r", labels := ["x", "x"] }] }
  else none

/-- Scenario (C7): the build. -/
def builtC7 : Except String RepositoryGraph :=
  buildGraph loadC7 hashABCD 40 "/main.yaml"

/-- Counterexample graph (C8): two level-1 config nodes supplying
base paths `p1` and then `p2` (a graph assembled through the public
mutation API; `BuildGraph` itself attaches a single level-1 config). -/
def gC8 : RepositoryGraph :=
  { nodes := [
      rootNode,
      { id := "c1", type := .config, name := "root", level := 1,
        fullPath := "root",
        config := some { global := { basePath := "p1", workers := 4 } } },
      { id := "c2", type := .config, name := "root2", level := 1,
        fullPath := "root",
        config := some { global := { basePath := "p2" } } },
      { id := "c3", type := .config, name := "deep", level := 2,
        fullPath := "deep",
        config := some { global := { basePath := "p3", workers := 9 } } }] }

/-- Scenario (C9, display-name collision): groups named `g` at scopes
`root/w/v` and `root/u/v` - different scopes, same nearest enclosing
segment `v`, so both display as `v-g`. -/
def loadC9c : String → Option Config := fun p =>
  if p == "/main.yaml" then
    some { includes := ["/configs/w/a.yaml", "/configs/u/a2.yaml"] }
  else if p == "/configs/w/a.yaml" then
    some { includes := ["/configs/w/v/b.yaml"] }
  else if p == "/configs/w/v/b.yaml" then some { groups := [("g", ["r1"])] }
  else if p == "/configs/u/a2.yaml" then
    some { includes := ["/configs/u/v/c.yaml"] }
  else if p == "/configs/u/v/c.yaml" then some { groups := [("g", ["r2"])] }
  else none

/-- Hash instance for the C9 collision scenario. -/
def hashC9c : String → String := fun p =>
  if p == "/main.yaml" then "bbbb0001"
  else if p == "/configs/w/a.yaml" then "bbbb0002"
  else if p == "/configs/w/v/b.yaml" then "bbbb0003"
  else if p == "/configs/u/a2.yaml" then "bbbb0004"
  else if p == "/configs/u/v/c.yaml" then "bbbb0005"
  else "ffffffff"

/-- Scenario (C9, collision): the build. -/
def builtC9c : Except String RepositoryGraph :=
  buildGraph loadC9c hashC9c 40 "/main.yaml"

/-- Scenario (C9, regular display): `solo` (unique name), `g` at root
scope and at scope `root/w/v` (prefixed `v-g`), a member list `b,a,b`
that must come out deduplicated and sorted, and an empty group with no
repositories in scope (omitted). -/
def loadC9p : String → Option Config := fun p =>
  if p == "/main.yaml" then
    some { groups := [("solo", ["r1"]), ("g", ["r1"])]
           includes := ["/configs/w/a.yaml"] }
  else if p == "/configs/w/a.yaml" then
    some { includes := ["/configs/w/v/b.yaml"] }
  else if p == "/configs/w/v/b.yaml" then
    some { groups := [("g", ["b", "a", "b"]), ("emptyg", [])] }
  else none

/-- Scenario (C9, regular display): the build. -/
def builtC9p : Except String RepositoryGraph :=
  buildGraph loadC9p hashC9c 40 "/main.yaml"

/-- Scenario (C10): group `g` at scope `root` (members `r1`) and at scope
`x` (members `r2`), plus both repositories. -/
def loadC10 : String → Option Config := fun p =>
  if p == "/configs/x/main.yaml" then
    some { repositories := [{ name := "r1" }, { name := "r2" }]
           groups := [("g", ["r1"])]
           includes := ["/configs/x/y/sub.yaml"] }
  else if p == "/configs/x/y/sub.yaml" then
    some { groups := [("g", ["r2"])] }
  else none

/-- Hash instance for the C10 scenario. -/
def hashC10 : String → String := fun p =>
  if p == "/configs/x/main.yaml" then "cccc0001"
  else if p == "/configs/x/y/sub.yaml" then "cccc0002"
  else "ffffffff"

/-- Scenario (C10): the build. -/
def builtC10 : Except String RepositoryGraph :=
  buildGraph loadC10 hashC10 40 "/configs/x/main.yaml"

end GoRepos

namespace GoRepos

/-- The repository nodes `processRepositories` creates for a list of
config nodes, in order. -/
def createdRepoNodes : List GraphNode → List GraphNode
  | [] => []
  | n :: rest =>
    (match n.config with
      | some c => c.repositories.map fun r => createRepositoryNode r n
      | none => []) ++ createdRepoNodes rest

/-- Merge a list of environment maps left to right, later entries
overwriting earlier ones key by key. -/
def envMergeAll (init : List (String × String))
    (envs : List (List (String × String))) : List (String × String) :=
  envs.foldl (fun acc env => env.foldl (fun a kv => mapInsert a kv.1 kv.2) acc)
    init

/-- The group definition produced for the C1 witness inputs. -/
def c1WitnessGroupDef : GroupDefinition :=
  { name := "g", explicitRepos := [], inheritedRepos := ["a", "b"],
    isEmpty := true }

/-- Witness input graph for the C4 repository-uniqueness direction: one
config node declaring repositories `a` and `b`. -/
def c4WitnessIn : RepositoryGraph :=
  { nodes := [
      { id := "cfg1", type := .config, name := "root", fullPath := "root",
        config := some { repositories := [{ name := "a" }, { name := "b" }] } }] }

/-- The graph obtained by running repository derivation on the witness
input. -/
def c4WitnessOut : RepositoryGraph :=
  (processRepositories c4WitnessIn).toOption.getD emptyGraph

/-- Witness input graph for the C4 group direction: one config node
defining group `g`. -/
def c4WitnessGroupsIn : RepositoryGraph :=
  { nodes := [
      { id := "cfg1", type := .config, name := "root", fullPath := "root",
        config := some { groups := [("g", ["a"])] } }] }

/-- The graph obtained by running group derivation on the witness input. -/
def c4WitnessGroupsOut : RepositoryGraph :=
  (processGroups c4WitnessGroupsIn).toOption.getD emptyGraph

/-- Witness input graph for C6: one repository node tagged `env=prod`. -/
def c6WitnessIn : RepositoryGraph :=
  { nodes := [
      { id := "repo_a", type := .repository, name := "a", fullPath := "root",
        repository := some { name := "a", tags := [("env", "prod")] } }] }

/-- The graph after the tag/label pass on the C6 witness input. -/
def c6WitnessOut : RepositoryGraph :=
  (processTagsAndLabels c6WitnessIn).toOption.getD emptyGraph

/-- The graph built in the regular C9 display scenario. -/
def c9WitnessGraph : RepositoryGraph := builtC9p.toOption.getD emptyGraph

end GoRepos

namespace GoRepos

/-! Helper lemmas shared between claim theorems. -/

theorem sortStrings_sorted (l : List String) :
    List.Sorted strLeP (sortStrings l) :=
  List.sorted_insertionSort strLeP l

theorem sortStrings_perm (l : List String) : List.Perm (sortStrings l) l :=
  List.perm_insertionSort strLeP l

theorem strData_append (s t : String) : (s ++ t).data = s.data ++ t.data := by
  cases s; cases t; rfl

theorem strApp_assoc (a b c : String) : a ++ b ++ c = a ++ (b ++ c) := by
  cases a; cases b; cases c; simp [String.ext_iff]

theorem strApp_ne_empty_left (a b : String) (h : a ≠ "") : a ++ b ≠ "" := by
  intro hc
  apply h
  have hd := congrArg String.data hc
  rw [strData_append] at hd
  simp only [List.append_eq_nil] at hd
  exact String.ext (by simp [hd.1])

theorem addNode_ok_nodes {g : RepositoryGraph} {n : GraphNode}
    {g' : RepositoryGraph} (h : addNode g n = .ok g') :
    g'.nodes = g.nodes ++ [n] := by
  unfold addNode at h
  split at h
  · exact absurd h (by simp)
  · cases h
    rfl

theorem addNode_ok_fresh {g : RepositoryGraph} {n : GraphNode}
    {g' : RepositoryGraph} (h : addNode g n = .ok g') :
    ∀ m ∈ g.nodes, m.id ≠ n.id := by
  unfold addNode at h
  split at h
  · exact absurd h (by simp)
  · next hc =>
    intro m hm he
    exact hc (List.any_eq_true.mpr ⟨m, hm, by simp [he]⟩)

theorem addNode_nodupIds {g : RepositoryGraph} {n : GraphNode}
    {g' : RepositoryGraph} (h : addNode g n = .ok g')
    (hn : (nodeIds g).Nodup) : (nodeIds g').Nodup := by
  have h1 := addNode_ok_nodes h
  have h2 := addNode_ok_fresh h
  simp only [nodeIds, h1, List.map_append, List.map_cons, List.map_nil]
  rw [List.nodup_append]
  refine ⟨hn, List.nodup_singleton _, ?_⟩
  intro x hx
  simp only [List.mem_map] at hx
  obtain ⟨m, hm, hxm⟩ := hx
  simp [← hxm, h2 m hm]

theorem addRelationship_ok_nodes {g : RepositoryGraph} {r : Relationship}
    {g' : RepositoryGraph} (h : addRelationship g r = .ok g') :
    g'.nodes = g.nodes := by
  unfold addRelationship at h
  split at h
  · exact absurd h (by simp)
  · cases h
    rfl

end GoRepos

namespace GoRepos

theorem createGroupNode_group (gn : String) (repos : List String)
    (cfg : GraphNode) (g : RepositoryGraph) :
    (createGroupNode gn repos cfg g).group =
      some { name := gn
             explicitRepos := repos
             inheritedRepos := if repos.isEmpty then
               calculateInheritedRepos (createGroupNode gn repos cfg g) g
               else []
             isEmpty := repos.isEmpty } := rfl

theorem calculateInheritedRepos_mem (scope : GraphNode)
    (g : RepositoryGraph) (s : String) :
    s ∈ calculateInheritedRepos scope g ↔
      ∃ n, n ∈ g.nodes ∧ n.type = .repository ∧ isInScope n scope = true ∧
        n.name = s := by
  unfold calculateInheritedRepos
  rw [(sortStrings_perm _).mem_iff]
  simp only [List.mem_map, List.mem_filter, getNodesByType, beq_iff_eq]
  tauto

theorem calculateInheritedRepos_nodup (scope : GraphNode)
    (g : RepositoryGraph)
    (h : ((getNodesByType g .repository).map GraphNode.name).Nodup) :
    (calculateInheritedRepos scope g).Nodup := by
  unfold calculateInheritedRepos
  apply (sortStrings_perm _).nodup_iff.mpr
  exact h.sublist ((List.filter_sublist _).map _)

/-- C1: a group authored with an empty explicit repository list is marked
`isEmpty`, and its `inheritedRepos` is exactly the ascending, duplicate-
free list of the names of the repository nodes in scope of the group node
per `IsInScope`: it is sorted, has no duplicates (builder-produced graphs
guarantee the name-distinctness hypothesis, since repository IDs are
`repo_<name>` and node IDs are unique), and contains a name exactly when
some in-scope repository node carries it.  The scenario conjunct builds
the root config with repositories `c`,`a`,`b` and empty group
`everything` and obtains `inheritedRepos = ["a","b","c"]` ascending. -/
theorem claim_c1 (groupName : String) (cfgNode : GraphNode)
    (g : RepositoryGraph) (gd : GroupDefinition)
    (hnd : ((getNodesByType g .repository).map GraphNode.name).Nodup)
    (hgd : (createGroupNode groupName [] cfgNode g).group = some gd) :
    (gd.isEmpty = true ∧
      List.Sorted strLeP gd.inheritedRepos ∧
      gd.inheritedRepos.Nodup ∧
      (∀ s, s ∈ gd.inheritedRepos ↔
        ∃ n, n ∈ g.nodes ∧ n.type = .repository ∧
          isInScope n (createGroupNode groupName [] cfgNode g) = true ∧
          n.name = s)) ∧
    (builtC1.map fun gOut =>
      (getNodesByType gOut .group).filterMap fun n =>
        n.group.map fun gdef => (gdef.isEmpty, gdef.inheritedRepos)) =
      .ok [(true, ["a", "b", "c"])] := by
  constructor
  · rw [createGroupNode_group] at hgd
    obtain rfl := Option.some.inj hgd
    refine ⟨rfl, ?_, ?_, ?_⟩
    · exact sortStrings_sorted _
    · exact calculateInheritedRepos_nodup _ _ hnd
    · intro s
      exact calculateInheritedRepos_mem _ _ _
  · rfl

/-- Witness for C1 at a concrete config node and two-repository graph. -/
theorem claim_c1_witness :
    (c1WitnessGroupDef.isEmpty = true ∧
      List.Sorted strLeP c1WitnessGroupDef.inheritedRepos ∧
      c1WitnessGroupDef.inheritedRepos.Nodup ∧
      (∀ s, s ∈ c1WitnessGroupDef.inheritedRepos ↔
        ∃ n, n ∈ c1WitnessGraph.nodes ∧ n.type = .repository ∧
          isInScope n (createGroupNode "g" [] c1WitnessCfg c1WitnessGraph) =
            true ∧
          n.name = s)) ∧
    (builtC1.map fun gOut =>
      (getNodesByType gOut .group).filterMap fun n =>
        n.group.map fun gdef => (gdef.isEmpty, gdef.inheritedRepos)) =
      .ok [(true, ["a", "b", "c"])] :=
  claim_c1 "g" c1WitnessCfg c1WitnessGraph c1WitnessGroupDef (by decide)
    (by decide)

end GoRepos

namespace GoRepos

/-- C2, counterexample: the claim's characterisation of `IsInScope` (root
scope, equal paths, or slash-extended prefix) fails for the node at full
path `root/x` against the non-root scope node at full path `root`:
the prefix clause holds but the code returns `false` (it special-cases a
scope whose path string is `root` to match only nodes at `root`). -/
theorem claim_c2_counterexample :
    ¬ (isInScope c2n3 c2scope = true ↔
      (c2scope.type = .root ∨
        getPathString c2n3 = getPathString c2scope ∨
        List.IsPrefix (getPathString c2scope ++ "/").data
          (getPathString c2n3).data)) := by
  decide

/-- C2, amended: `IsInScope(node, scope)` is true iff the scope is the
root node, or the scope is a non-root node whose path string is `root`
and the node's path string is also `root`, or the scope's path string is
not `root` and the node's path equals it or extends it past a slash. -/
theorem claim_c2 (n s : GraphNode) :
    isInScope n s = true ↔
      (s.type = .root ∨
        (s.type ≠ .root ∧ getPathString s = "root" ∧
          getPathString n = "root") ∨
        (s.type ≠ .root ∧ getPathString s ≠ "root" ∧
          (getPathString n = getPathString s ∨
            List.IsPrefix (getPathString s ++ "/").data
              (getPathString n).data))) := by
  by_cases h1 : s.type = .root
  · simp [isInScope, h1]
  · by_cases h2 : getPathString s = "root"
    · simp [isInScope, h1, h2]
    · simp [isInScope, h1, h2, hasPfx, List.isPrefixOf_iff_prefix]

theorem buildConfigHierarchy_onStack (load : String → Option Config)
    (hash : String → String) (fuel : Nat) (stack : List String)
    (parent : GraphNode) (g : RepositoryGraph) (path : String)
    (h : stack.contains path = true) :
    buildConfigHierarchy load hash fuel stack parent g path =
      .error ("circular dependency detected: " ++ path) := by
  unfold buildConfigHierarchy buildStep
  have h' : path ∈ stack := by simpa using h
  simp [h']

/-- C3, counterexample: reuse of one file by two independent include
branches (`A` includes `B` and `C`; both include `D`) passes the
recursion-stack cycle check but still aborts the build: the second visit
to `D` recreates the same path-hash config-node ID and the index engine
rejects it as a duplicate, so the diamond build does not succeed as the
claim states. -/
theorem claim_c3_counterexample :
    builtDia = .error ("failed to build configuration hierarchy: " ++
      "failed to build included hierarchy /C.yaml: " ++
      "failed to build included hierarchy /D.yaml: " ++
      "failed to add config node: " ++
      "node with ID config_dddddddd already exists") := by
  rfl

/-- C3, amended: hierarchy expansion fails with a circular-dependency
error exactly when the path at hand is already on the recursion stack
(first conjunct, for every loader, hash, fuel, stack and graph); the
include chain `A - B - A` therefore aborts with a circular-dependency
error and no graph (second conjunct); but a path revisited only after
being popped - the diamond `A - B,C - D` - while not a circular-
dependency error, still fails, with a duplicate config-node ID error
(third conjunct). -/
theorem claim_c3 :
    (∀ (load : String → Option Config) (hash : String → String)
      (fuel : Nat) (stack : List String) (parent : GraphNode)
      (g : RepositoryGraph) (path : String),
      stack.contains path = true →
        buildConfigHierarchy load hash fuel stack parent g path =
          .error ("circular dependency detected: " ++ path)) ∧
    builtCyc = .error ("failed to build configuration hierarchy: " ++
      "failed to build included hierarchy /B.yaml: " ++
      "failed to build included hierarchy /A.yaml: " ++
      "circular dependency detected: /A.yaml") ∧
    builtDia = .error ("failed to build configuration hierarchy: " ++
      "failed to build included hierarchy /C.yaml: " ++
      "failed to build included hierarchy /D.yaml: " ++
      "failed to add config node: " ++
      "node with ID config_dddddddd already exists") :=
  ⟨buildConfigHierarchy_onStack, rfl, rfl⟩

/-- Witness for C3's universally quantified conjunct at a concrete stack
that already contains the path. -/
theorem claim_c3_witness :
    buildConfigHierarchy loadCyc hashABCD 5 ["/A.yaml"] rootNode emptyGraph
      "/A.yaml" = .error "circular dependency detected: /A.yaml" :=
  claim_c3.1 loadCyc hashABCD 5 ["/A.yaml"] rootNode emptyGraph "/A.yaml"
    (by decide)

end GoRepos
namespace GoRepos

theorem isInScope_eq (n s : GraphNode) :
    isInScope n s =
      (if s.type == .root then true
       else if getPathString s == "root" then getPathString n == "root"
       else (getPathString n == getPathString s ||
         hasPfx (getPathString n) (getPathString s ++ "/"))) := rfl

theorem joinSlash_append (xs ys : List String) (hx : xs ≠ []) (hy : ys ≠ []) :
    joinSlash (xs ++ ys) = joinSlash xs ++ "/" ++ joinSlash ys := by
  induction xs with
  | nil => exact absurd rfl hx
  | cons s xs ih =>
    cases xs with
    | nil =>
      cases ys with
      | nil => exact absurd rfl hy
      | cons y ys' => simp [joinSlash]
    | cons t rest =>
      have h := ih (by simp)
      simp only [List.cons_append] at h ⊢
      simp only [joinSlash] at h ⊢
      rw [h]
      simp [strApp_assoc]

theorem joinSlash_ne_empty_of_ne (xs : List String) (h : joinSlash xs ≠ "") :
    xs ≠ [] := by
  intro hc
  subst hc
  exact h rfl

theorem desc_path (a b : GraphNode) (hd : Desc a b) (ha : a.type ≠ .root) :
    ∃ r, b.path = a.path ++ ([a.name] ++ r) := by
  induction hd with
  | child c =>
    refine ⟨[], ?_⟩
    simp [addChild, ha]
  | step b' c hd' ih =>
    obtain ⟨r, hr⟩ := ih
    refine ⟨r ++ (if b'.type == .root then [] else [b'.name]), ?_⟩
    simp [addChild, hr, List.append_assoc]

theorem desc_fullPath (a b : GraphNode) (hd : Desc a b) :
    b.fullPath =
      (if joinSlash b.path == "" then "root" else joinSlash b.path) := by
  cases hd with
  | child c => rfl
  | step b' c hd' => rfl

/-- C5, counterexample: `c5nodeB` is a direct `AddChild` descendant of the
level-1 config node `c5nodeA` (named `teams`, full path `root`), yet
`IsInScope(c5nodeB, c5nodeA)` is false: the code special-cases a scope
whose path string is `root` to match only nodes whose path string is
also `root`, and `c5nodeB`'s path string is `teams`. -/
theorem claim_c5_counterexample :
    Desc c5nodeA c5nodeB ∧ isInScope c5nodeB c5nodeA = false :=
  ⟨Desc.child c5nodeA { id := "cb", type := .config, name := "x" }, by decide⟩

/-- C5, amended: descendant monotonicity of `IsInScope` holds except at a
non-root scope node whose path string is `root`.  (1) the root scope
contains everything; (2) for a non-root scope node at path string `root`
(every level-1 config node is such a node) a node is in scope iff its own
path string is `root`, descendant or not; (3) for a non-root, well-formed
scope node whose path string is not `root`, every `AddChild` descendant
is in scope; (4) nodes with unrelated path strings (not equal, neither a
slash-extended prefix of the other) are never in scope of a non-root
scope node. -/
theorem claim_c5 :
    (∀ a b : GraphNode, a.type = .root → isInScope b a = true) ∧
    (∀ a b : GraphNode, a.type ≠ .root → getPathString a = "root" →
      (isInScope b a = true ↔ getPathString b = "root")) ∧
    (∀ a b : GraphNode, a.type ≠ .root →
      a.fullPath =
        (if joinSlash a.path == "" then "root" else joinSlash a.path) →
      a.fullPath ≠ "root" → Desc a b → isInScope b a = true) ∧
    (∀ a b : GraphNode, a.type ≠ .root →
      getPathString b ≠ getPathString a →
      ¬ List.IsPrefix (getPathString a ++ "/").data (getPathString b).data →
      ¬ List.IsPrefix (getPathString b ++ "/").data (getPathString a).data →
      isInScope b a = false) := by
  refine ⟨?_, ?_, ?_, ?_⟩
  · intro a b h
    simp [isInScope_eq, h]
  · intro a b h1 h2
    simp [isInScope_eq, h1, h2]
  · intro a b h1 hwf h2 hd
    have hjoin : joinSlash a.path ≠ "" := by
      intro hc
      rw [hwf, hc] at h2
      exact h2 (by simp)
    have hfp : a.fullPath = joinSlash a.path := by
      rw [hwf, if_neg (by simpa using hjoin)]
    have hpne : a.path ≠ [] := joinSlash_ne_empty_of_ne _ hjoin
    obtain ⟨r, hr⟩ := desc_path a b hd h1
    have hb : joinSlash b.path =
        joinSlash a.path ++ "/" ++ joinSlash ([a.name] ++ r) := by
      rw [hr, joinSlash_append a.path ([a.name] ++ r) hpne (by simp)]
    have hbne : joinSlash b.path ≠ "" := by
      rw [hb]
      exact strApp_ne_empty_left _ _ (strApp_ne_empty_left _ _ hjoin)
    have hbfp : b.fullPath = joinSlash b.path := by
      rw [desc_fullPath a b hd, if_neg (by simpa using hbne)]
    have hgb : getPathString b = joinSlash b.path := by
      simp only [getPathString, hbfp]
      simp [hbne]
    have hga : getPathString a = joinSlash a.path := by
      simp only [getPathString, hfp]
      simp [hjoin]
    have hroot : joinSlash a.path ≠ "root" := hfp ▸ h2
    have hpfx : hasPfx
        (joinSlash a.path ++ "/" ++ joinSlash ([a.name] ++ r))
        (joinSlash a.path ++ "/") = true := by
      simp only [hasPfx]
      apply List.isPrefixOf_iff_prefix.mpr
      rw [strData_append]
      exact List.prefix_append _ _
    rw [isInScope_eq, if_neg (by simpa using h1), hga, hgb,
      if_neg (by simpa using hroot), hb]
    simp
    right
    simpa using hpfx
  · intro a b h1 h2 h3 h4
    rw [isInScope_eq, if_neg (by simpa using h1)]
    by_cases h5 : getPathString a = "root"
    · rw [if_pos (by simpa using h5)]
      have hb : getPathString b ≠ "root" := fun hc => h2 (hc.trans h5.symm)
      simpa using hb
    · rw [if_neg (by simpa using h5)]
      have e1 : (getPathString b == getPathString a) = false := by
        simpa using h2
      have e2 : hasPfx (getPathString b) (getPathString a ++ "/") = false := by
        simp only [hasPfx]
        cases hx :
          ((getPathString a ++ "/").data.isPrefixOf (getPathString b).data) with
        | false => rfl
        | true => exact absurd (List.isPrefixOf_iff_prefix.mp hx) h3
      simp [e1, e2]

end GoRepos

namespace GoRepos

/-- Witness for C2 at the concrete pair of nodes from the graph model. -/
theorem claim_c2_witness :
    isInScope c5nodeC c5nodeB = true ↔
      (c5nodeB.type = .root ∨
        (c5nodeB.type ≠ .root ∧ getPathString c5nodeB = "root" ∧
          getPathString c5nodeC = "root") ∨
        (c5nodeB.type ≠ .root ∧ getPathString c5nodeB ≠ "root" ∧
          (getPathString c5nodeC = getPathString c5nodeB ∨
            List.IsPrefix (getPathString c5nodeB ++ "/").data
              (getPathString c5nodeC).data))) :=
  claim_c2 c5nodeC c5nodeB

/-- Witness for C5, applying the descendant-monotonicity conjunct to the
concrete parent at full path `teams` and its attached child. -/
theorem claim_c5_witness : isInScope c5nodeC c5nodeB = true :=
  claim_c5.2.2.1 c5nodeB c5nodeC (by decide) (by decide) (by decide)
    (Desc.child c5nodeB { id := "cc", type := .config, name := "y" })

end GoRepos

namespace GoRepos

theorem createRepositoryNode_id (r : Repository) (c : GraphNode) :
    (createRepositoryNode r c).id = "repo_" ++ r.name := rfl

theorem strApp_left_cancel (p a b : String) (h : p ++ a = p ++ b) : a = b := by
  have hd := congrArg String.data h
  rw [strData_append, strData_append] at hd
  exact String.ext (List.append_cancel_left hd)

theorem strApp_right_cancel (p a b : String) (h : a ++ p = b ++ p) : a = b := by
  have hd := congrArg String.data h
  rw [strData_append, strData_append] at hd
  exact String.ext (List.append_cancel_right hd)

theorem processRepoList_ok_nodes (c : GraphNode) (rs : List Repository) :
    ∀ {g g' : RepositoryGraph}, processRepoList c g rs = .ok g' →
    g'.nodes = g.nodes ++ rs.map (fun r => createRepositoryNode r c) := by
  induction rs with
  | nil =>
    intro g g' h
    simp only [processRepoList] at h
    cases h
    simp
  | cons r rest ih =>
    intro g g' h
    simp only [processRepoList] at h
    split at h
    · exact absurd h (by simp)
    · next g1 heq =>
      split at h
      · exact absurd h (by simp)
      · next g2 heq2 =>
        rw [ih h, addRelationship_ok_nodes heq2, addNode_ok_nodes heq]
        simp

theorem processRepoList_nodupIds (c : GraphNode) (rs : List Repository) :
    ∀ {g g' : RepositoryGraph}, processRepoList c g rs = .ok g' →
    (nodeIds g).Nodup → (nodeIds g').Nodup := by
  induction rs with
  | nil =>
    intro g g' h hn
    simp only [processRepoList] at h
    cases h
    exact hn
  | cons r rest ih =>
    intro g g' h hn
    simp only [processRepoList] at h
    split at h
    · exact absurd h (by simp)
    · next g1 heq =>
      split at h
      · exact absurd h (by simp)
      · next g2 heq2 =>
        have hn1 := addNode_nodupIds heq hn
        have hn2 : (nodeIds g2).Nodup := by
          rwa [nodeIds, addRelationship_ok_nodes heq2]
        exact ih h hn2

theorem processConfigRepos_ok_nodes (cfgs : List GraphNode) :
    ∀ {g g' : RepositoryGraph}, processConfigRepos g cfgs = .ok g' →
    g'.nodes = g.nodes ++ createdRepoNodes cfgs := by
  induction cfgs with
  | nil =>
    intro g g' h
    simp only [processConfigRepos] at h
    cases h
    simp [createdRepoNodes]
  | cons n rest ih =>
    intro g g' h
    simp only [processConfigRepos] at h
    split at h
    · next hc =>
      rw [ih h]
      simp [createdRepoNodes, hc]
    · next c hc =>
      split at h
      · exact absurd h (by simp)
      · next g1 heq =>
        rw [ih h, processRepoList_ok_nodes n c.repositories heq]
        simp [createdRepoNodes, hc]

theorem processConfigRepos_nodupIds (cfgs : List GraphNode) :
    ∀ {g g' : RepositoryGraph}, processConfigRepos g cfgs = .ok g' →
    (nodeIds g).Nodup → (nodeIds g').Nodup := by
  induction cfgs with
  | nil =>
    intro g g' h hn
    simp only [processConfigRepos] at h
    cases h
    exact hn
  | cons n rest ih =>
    intro g g' h hn
    simp only [processConfigRepos] at h
    split at h
    · next hc => exact ih h hn
    · next c hc =>
      split at h
      · exact absurd h (by simp)
      · next g1 heq =>
        exact ih h (processRepoList_nodupIds n c.repositories heq hn)

theorem createdRepoNodes_ids (cfgs : List GraphNode) :
    (createdRepoNodes cfgs).map GraphNode.id =
      (configRepoNames cfgs).map (fun s => "repo_" ++ s) := by
  induction cfgs with
  | nil => rfl
  | cons n rest ih =>
    cases hc : n.config with
    | none => simp [createdRepoNodes, configRepoNames, hc, ih]
    | some c =>
      simp only [createdRepoNodes, configRepoNames, hc, List.map_append, ih,
        List.map_map]
      congr 1

theorem addGroupIncludes_ok_nodes (gn : GraphNode) (names : List String) :
    ∀ {g g' : RepositoryGraph}, addGroupIncludes gn g names = .ok g' →
    g'.nodes = g.nodes := by
  induction names with
  | nil =>
    intro g g' h
    simp only [addGroupIncludes] at h
    cases h
    rfl
  | cons nm rest ih =>
    intro g g' h
    simp only [addGroupIncludes] at h
    split at h
    · exact ih h
    · next rn heq =>
      split at h
      · exact absurd h (by simp)
      · next g1 heq2 =>
        rw [ih h, addRelationship_ok_nodes heq2]

theorem createGroupNode_id (nm : String) (repos : List String)
    (c : GraphNode) (g : RepositoryGraph) :
    (createGroupNode nm repos c g).id = groupIdFor c nm := rfl

theorem processGroupList_ok_ids (c : GraphNode)
    (gl : List (String × List String)) :
    ∀ {g g' : RepositoryGraph}, processGroupList c g gl = .ok g' →
    nodeIds g' = nodeIds g ++ gl.map (fun kv => groupIdFor c kv.1) := by
  induction gl with
  | nil =>
    intro g g' h
    simp only [processGroupList] at h
    cases h
    simp
  | cons kv rest ih =>
    intro g g' h
    simp only [processGroupList] at h
    split at h
    · exact absurd h (by simp)
    · next g1 heq =>
      split at h
      · exact absurd h (by simp)
      · next g2 heq2 =>
        split at h
        · exact absurd h (by simp)
        · next g3 heq3 =>
          rw [ih h, nodeIds, addGroupIncludes_ok_nodes _ _ heq3,
            addRelationship_ok_nodes heq2, addNode_ok_nodes heq]
          simp [nodeIds, createGroupNode_id]

theorem processGroupList_nodupIds (c : GraphNode)
    (gl : List (String × List String)) :
    ∀ {g g' : RepositoryGraph}, processGroupList c g gl = .ok g' →
    (nodeIds g).Nodup → (nodeIds g').Nodup := by
  induction gl with
  | nil =>
    intro g g' h hn
    simp only [processGroupList] at h
    cases h
    exact hn
  | cons kv rest ih =>
    intro g g' h hn
    simp only [processGroupList] at h
    split at h
    · exact absurd h (by simp)
    · next g1 heq =>
      split at h
      · exact absurd h (by simp)
      · next g2 heq2 =>
        split at h
        · exact absurd h (by simp)
        · next g3 heq3 =>
          have hn1 := addNode_nodupIds heq hn
          have hn2 : (nodeIds g2).Nodup := by
            rwa [nodeIds, addRelationship_ok_nodes heq2]
          have hn3 : (nodeIds g3).Nodup := by
            rwa [nodeIds, addGroupIncludes_ok_nodes _ _ heq3]
          exact ih h hn3

theorem processConfigGroups_ok_ids (cfgs : List GraphNode) :
    ∀ {g g' : RepositoryGraph}, processConfigGroups g cfgs = .ok g' →
    nodeIds g' = nodeIds g ++ configGroupIds cfgs := by
  induction cfgs with
  | nil =>
    intro g g' h
    simp only [processConfigGroups] at h
    cases h
    simp [configGroupIds]
  | cons n rest ih =>
    intro g g' h
    simp only [processConfigGroups] at h
    split at h
    · next hc =>
      rw [ih h]
      simp [configGroupIds, hc]
    · next c hc =>
      split at h
      · exact absurd h (by simp)
      · next g1 heq =>
        rw [ih h, processGroupList_ok_ids n c.groups heq]
        simp [configGroupIds, hc]

theorem processConfigGroups_nodupIds (cfgs : List GraphNode) :
    ∀ {g g' : RepositoryGraph}, processConfigGroups g cfgs = .ok g' →
    (nodeIds g).Nodup → (nodeIds g').Nodup := by
  induction cfgs with
  | nil =>
    intro g g' h hn
    simp only [processConfigGroups] at h
    cases h
    exact hn
  | cons n rest ih =>
    intro g g' h hn
    simp only [processConfigGroups] at h
    split at h
    · next hc => exact ih h hn
    · next c hc =>
      split at h
      · exact absurd h (by simp)
      · next g1 heq => exact ih h (processGroupList_nodupIds n c.groups heq hn)

theorem groupIdFor_ne (c1 c2 : GraphNode) (nm : String)
    (h : sanitizeScope (getPathString c1) ≠ sanitizeScope (getPathString c2)) :
    groupIdFor c1 nm ≠ groupIdFor c2 nm := by
  intro hc
  apply h
  simp only [groupIdFor] at hc
  have hd := congrArg String.data hc
  simp only [strData_append, List.append_assoc] at hd
  exact String.ext (List.append_cancel_right (List.append_cancel_left hd))

end GoRepos

namespace GoRepos

/-- C4, counterexample: two different scopes whose sanitized path strings
coincide.  The level-3 config at path string `a/x_y` and the level-4
config at path string `a/x/y` both sanitize to `a_x_y`, so groups named
`g` at these two different scopes receive the same node ID and the build
fails with a duplicate-node error, contradicting the claim that a shared
group name at two different scopes always succeeds. -/
theorem claim_c4_counterexample :
    ("a/x_y" : String) ≠ "a/x/y" ∧
    sanitizeScope "a/x_y" = "a_x_y" ∧
    sanitizeScope "a/x/y" = "a_x_y" ∧
    builtC4c = .error ("failed to process groups: " ++
      "failed to add group node group_a_x_y_g: " ++
      "node with ID group_a_x_y_g already exists") :=
  ⟨by decide, by decide, by decide, rfl⟩

/-- C4, amended: (1) if repository derivation succeeds on a graph with
unique node IDs, the repository-record names across the whole hierarchy
were pairwise distinct - contrapositive: a duplicated repository name
anywhere aborts the build with a duplicate-node error; (2) if group
derivation succeeds, the scope-qualified group IDs were pairwise distinct
- two groups sharing a name and a sanitized scope string (in particular
the same scope) abort the build; (3) a shared group name at scopes whose
sanitized path strings differ yields distinct group IDs; concretely the
duplicate-repository build and the same-scope-group build fail (4), (5),
while `g` at scope `root` and at scope `root/w` builds two distinct
group nodes (6). -/
theorem claim_c4 :
    (∀ g g' : RepositoryGraph, (nodeIds g).Nodup →
      processRepositories g = .ok g' → (allRepoRecordNames g).Nodup) ∧
    (∀ g g' : RepositoryGraph, (nodeIds g).Nodup →
      processGroups g = .ok g' → (allGroupIds g).Nodup) ∧
    (∀ (c1 c2 : GraphNode) (nm : String),
      sanitizeScope (getPathString c1) ≠ sanitizeScope (getPathString c2) →
      groupIdFor c1 nm ≠ groupIdFor c2 nm) ∧
    builtC4r = .error ("failed to process repositories: " ++
      "failed to add repository node repo_dup: " ++
      "node with ID repo_dup already exists") ∧
    builtC4s = .error ("failed to process groups: " ++
      "failed to add group node group_root_g: " ++
      "node with ID group_root_g already exists") ∧
    (builtC4d.map fun g => (getNodesByType g .group).map GraphNode.id) =
      .ok ["group_root_g", "group_root_w_g"] := by
  refine ⟨?_, ?_, groupIdFor_ne, rfl, rfl, rfl⟩
  · intro g g' hnd hok
    have hch := processConfigRepos_ok_nodes _ hok
    have hnd' := processConfigRepos_nodupIds _ hok hnd
    simp only [nodeIds, hch, List.map_append] at hnd'
    have hb := (List.nodup_append.mp hnd').2.1
    rw [createdRepoNodes_ids] at hb
    exact hb.of_map _
  · intro g g' hnd hok
    have hch := processConfigGroups_ok_ids _ hok
    have hnd' := processConfigGroups_nodupIds _ hok hnd
    rw [hch] at hnd'
    exact (List.nodup_append.mp hnd').2.1

/-- Witness for C4's quantified conjuncts at concrete graphs: a config
with distinct repositories, a config with one group, and the two concrete
config nodes at path strings `root` and `root/x`. -/
theorem claim_c4_witness :
    (allRepoRecordNames c4WitnessIn).Nodup ∧
    (allGroupIds c4WitnessGroupsIn).Nodup ∧
    groupIdFor c2n2 "g" ≠ groupIdFor c2n3 "g" :=
  ⟨claim_c4.1 c4WitnessIn c4WitnessOut (by decide) rfl,
   claim_c4.2.1 c4WitnessGroupsIn c4WitnessGroupsOut (by decide) rfl,
   claim_c4.2.2.1 c2n2 c2n3 "g" (by decide)⟩

end GoRepos

namespace GoRepos

theorem addNode_of_fresh (g : RepositoryGraph) (n : GraphNode)
    (h : (getNode g n.id).isNone = true) :
    ∃ g1, addNode g n = .ok g1 ∧ g1.nodes = g.nodes ++ [n] := by
  have hfind : g.nodes.find? (fun m => m.id == n.id) = none := by
    cases hf : getNode g n.id with
    | none => exact hf
    | some x =>
      rw [show getNode g n.id = some x from hf] at h
      simp at h
  have hany : (g.nodes.any fun m => m.id == n.id) = false := by
    cases ha : g.nodes.any fun m => m.id == n.id
    · rfl
    · obtain ⟨x, hx, hxe⟩ := List.any_eq_true.mp ha
      exact absurd hxe (List.find?_eq_none.mp hfind x hx)
  have hstep : addNode g n = .ok { g with
      nodes := g.nodes ++ [n]
      allRepositories := if n.type == .repository then
        mapInsert g.allRepositories n.name n else g.allRepositories
      allGroups := if n.type == .group then
        mapInsert g.allGroups n.name n else g.allGroups } := by
    unfold addNode
    rw [if_neg (by simp [hany])]
  exact ⟨_, hstep, rfl⟩

theorem discard_rel_nodes (g : RepositoryGraph)
    (r : Except String RepositoryGraph)
    (hr : ∀ gx, r = .ok gx → gx.nodes = g.nodes) :
    (match r with | .ok gx => gx | .error _ => g).nodes = g.nodes := by
  cases r with
  | ok gx => exact hr gx rfl
  | error e => rfl

theorem processEntityTags_ok (e s : String) (src : GraphNode)
    (tags : List (String × String)) :
    ∀ (g : RepositoryGraph) (ct : List (String × GraphNode)),
    ∃ g' ct', processEntityTags e s src g ct tags = .ok (g', ct') ∧
      ((nodeIds g).Nodup → (nodeIds g').Nodup) := by
  induction tags with
  | nil =>
    intro g ct
    exact ⟨g, ct, rfl, id⟩
  | cons htv rest ih =>
    intro g ct
    obtain ⟨tn, tv⟩ := htv
    simp only [processEntityTags]
    by_cases hg : (getNode g (createOrGetTagNode tn tv s src ct).1.id).isNone =
      true
    · obtain ⟨g1, ha, hn⟩ := addNode_of_fresh _ _ hg
      rw [if_pos hg, ha]
      obtain ⟨g', ct', heq, hpres⟩ := ih
        (match createTagRelationship g1 src (createOrGetTagNode tn tv s src ct).1
          with
          | .ok gx => gx
          | .error _ => g1)
        (createOrGetTagNode tn tv s src ct).2
      refine ⟨g', ct', heq, fun hnd => hpres ?_⟩
      have hg2 := discard_rel_nodes g1
        (createTagRelationship g1 src (createOrGetTagNode tn tv s src ct).1)
        (fun gx hx => addRelationship_ok_nodes hx)
      have hnd1 : (nodeIds g1).Nodup := addNode_nodupIds ha hnd
      simpa [nodeIds, hg2] using hnd1
    · rw [if_neg hg]
      obtain ⟨g', ct', heq, hpres⟩ := ih
        (match createTagRelationship g src (createOrGetTagNode tn tv s src ct).1
          with
          | .ok gx => gx
          | .error _ => g)
        (createOrGetTagNode tn tv s src ct).2
      refine ⟨g', ct', heq, fun hnd => hpres ?_⟩
      have hg2 := discard_rel_nodes g
        (createTagRelationship g src (createOrGetTagNode tn tv s src ct).1)
        (fun gx hx => addRelationship_ok_nodes hx)
      simpa [nodeIds, hg2] using hnd

theorem processEntityLabels_ok (e s : String) (src : GraphNode)
    (labels : List String) :
    ∀ (g : RepositoryGraph) (cl : List (String × GraphNode)),
    ∃ g' cl', processEntityLabels e s src g cl labels = .ok (g', cl') ∧
      ((nodeIds g).Nodup → (nodeIds g').Nodup) := by
  induction labels with
  | nil =>
    intro g cl
    exact ⟨g, cl, rfl, id⟩
  | cons ln rest ih =>
    intro g cl
    simp only [processEntityLabels]
    by_cases hg : (getNode g (createOrGetLabelNode ln s src cl).1.id).isNone =
      true
    · obtain ⟨g1, ha, hn⟩ := addNode_of_fresh _ _ hg
      rw [if_pos hg, ha]
      obtain ⟨g', cl', heq, hpres⟩ := ih
        (match createLabelRelationship g1 src (createOrGetLabelNode ln s src cl).1
          with
          | .ok gx => gx
          | .error _ => g1)
        (createOrGetLabelNode ln s src cl).2
      refine ⟨g', cl', heq, fun hnd => hpres ?_⟩
      have hg2 := discard_rel_nodes g1
        (createLabelRelationship g1 src (createOrGetLabelNode ln s src cl).1)
        (fun gx hx => addRelationship_ok_nodes hx)
      have hnd1 : (nodeIds g1).Nodup := addNode_nodupIds ha hnd
      simpa [nodeIds, hg2] using hnd1
    · rw [if_neg hg]
      obtain ⟨g', cl', heq, hpres⟩ := ih
        (match createLabelRelationship g src (createOrGetLabelNode ln s src cl).1
          with
          | .ok gx => gx
          | .error _ => g)
        (createOrGetLabelNode ln s src cl).2
      refine ⟨g', cl', heq, fun hnd => hpres ?_⟩
      have hg2 := discard_rel_nodes g
        (createLabelRelationship g src (createOrGetLabelNode ln s src cl).1)
        (fun gx hx => addRelationship_ok_nodes hx)
      simpa [nodeIds, hg2] using hnd

theorem processTagsConfigLoop_ok (cfgs : List GraphNode) :
    ∀ (g : RepositoryGraph) (ct cl : List (String × GraphNode)),
    ∃ g' ct' cl', processTagsConfigLoop g ct cl cfgs = .ok (g', ct', cl') ∧
      ((nodeIds g).Nodup → (nodeIds g').Nodup) := by
  induction cfgs with
  | nil =>
    intro g ct cl
    exact ⟨g, ct, cl, rfl, id⟩
  | cons n rest ih =>
    intro g ct cl
    simp only [processTagsConfigLoop]
    split
    · exact ih g ct cl
    · next c hc =>
      obtain ⟨g1, ct1, heq1, hp1⟩ :=
        processEntityTags_ok "failed to add global tag node " "global" n
          c.global.tags g ct
      obtain ⟨g2, cl1, heq2, hp2⟩ :=
        processEntityLabels_ok "failed to add global label node " "global" n
          c.global.labels g1 cl
      obtain ⟨g', ct', cl', heq3, hp3⟩ := ih g2 ct1 cl1
      refine ⟨g', ct', cl', ?_, fun hnd => hp3 (hp2 (hp1 hnd))⟩
      simp only [heq1, heq2, heq3]

theorem processTagsRepoLoop_ok (repos : List GraphNode) :
    ∀ (g : RepositoryGraph) (ct cl : List (String × GraphNode)),
    ∃ g' ct' cl', processTagsRepoLoop g ct cl repos = .ok (g', ct', cl') ∧
      ((nodeIds g).Nodup → (nodeIds g').Nodup) := by
  induction repos with
  | nil =>
    intro g ct cl
    exact ⟨g, ct, cl, rfl, id⟩
  | cons n rest ih =>
    intro g ct cl
    simp only [processTagsRepoLoop]
    split
    · exact ih g ct cl
    · next repo hc =>
      obtain ⟨g1, ct1, heq1, hp1⟩ :=
        processEntityTags_ok "failed to add repository tag node " "repository" n
          repo.tags g ct
      obtain ⟨g2, cl1, heq2, hp2⟩ :=
        processEntityLabels_ok "failed to add repository label node "
          "repository" n repo.labels g1 cl
      obtain ⟨g', ct', cl', heq3, hp3⟩ := ih g2 ct1 cl1
      refine ⟨g', ct', cl', ?_, fun hnd => hp3 (hp2 (hp1 hnd))⟩
      simp only [heq1, heq2, heq3]

theorem processTagsAndLabels_ok (g : RepositoryGraph) :
    ∃ g', processTagsAndLabels g = .ok g' ∧
      ((nodeIds g).Nodup → (nodeIds g').Nodup) := by
  unfold processTagsAndLabels
  obtain ⟨g1, ct, cl, heq1, hp1⟩ :=
    processTagsConfigLoop_ok (getNodesByType g .config) g [] []
  obtain ⟨g', ct', cl', heq2, hp2⟩ :=
    processTagsRepoLoop_ok (getNodesByType g1 .repository) g1 ct cl
  refine ⟨g', ?_, fun hnd => hp2 (hp1 hnd)⟩
  simp only [heq1, heq2]

end GoRepos

namespace GoRepos

/-- C6: within one build, tag nodes are shared.  (1) the tag/label pass
preserves uniqueness of node IDs, and tag nodes are keyed by the ID
`tag_<name>_<value>`, so at most one tag node per rendered (name, value)
key ever exists; (2) and (3): building two repositories both tagged
`env=prod` yields exactly one tag node and exactly two incoming
`tagged_with` relationships, one from each repository, never two tag
nodes. -/
theorem claim_c6 :
    (∀ g g' : RepositoryGraph, processTagsAndLabels g = .ok g' →
      (nodeIds g).Nodup → (nodeIds g').Nodup) ∧
    (builtC6.map fun g => (getNodesByType g .tag).map GraphNode.id) =
      .ok ["tag_env_prod"] ∧
    (builtC6.map fun g =>
      (g.relationships.filter fun r => r.type == .tagged_with).map
        fun r => (r.fromId, r.toId)) =
      .ok [("repo_r1", "tag_env_prod"), ("repo_r2", "tag_env_prod")] := by
  refine ⟨?_, rfl, rfl⟩
  intro g g' heq hnd
  obtain ⟨g'', heq2, hpres⟩ := processTagsAndLabels_ok g
  rw [heq] at heq2
  cases heq2
  exact hpres hnd

/-- Witness for C6's preservation conjunct at a concrete one-repository
graph. -/
theorem claim_c6_witness : (nodeIds c6WitnessOut).Nodup :=
  claim_c6.1 c6WitnessIn c6WitnessOut rfl (by decide)

/-- C7, divergence evidence: the tag/label derivation step can never
propagate an error (1) - its node insertions are guarded by an existence
check and the return values of `createTagRelationship` /
`createLabelRelationship` are discarded at every call site - so a build
whose repository carries the duplicate label list `x, x` (2) attempts two
`labeled_with` insertions, the second of which fails with a duplicate
relationship ID, yet the build succeeds and records only the single
relationship (3), contradicting the claim that no error raised inside a
step is discarded. -/
theorem claim_c7 :
    (∀ g : RepositoryGraph, ∃ g', processTagsAndLabels g = .ok g') ∧
    (builtC7.map fun g => (getNodesByType g .repository).filterMap fun n =>
      n.repository.map Repository.labels) = .ok [["x", "x"]] ∧
    (builtC7.map fun g =>
      (g.relationships.filter fun r => r.type == .labeled_with).map
        Relationship.id) = .ok ["labeled_repo_r_label_x"] := by
  refine ⟨?_, rfl, rfl⟩
  intro g
  obtain ⟨g', heq, _⟩ := processTagsAndLabels_ok g
  exact ⟨g', heq⟩

end GoRepos

namespace GoRepos

theorem lastNonEmptyStr_cons (d x : String) (xs : List String) :
    lastNonEmptyStr d (x :: xs) =
      lastNonEmptyStr (if x != "" then x else d) xs := rfl

theorem lastPosInt_cons (d x : Int) (xs : List Int) :
    lastPosInt d (x :: xs) = lastPosInt (if x > 0 then x else d) xs := rfl

theorem mergeOneGlobal_basePath (glob : GlobalConfig) (c : Config) :
    (mergeOneGlobal glob c).basePath =
      (if c.global.basePath != "" then c.global.basePath
       else glob.basePath) := by
  simp only [mergeOneGlobal]
  split_ifs <;> rfl

theorem mergeOneGlobal_workers (glob : GlobalConfig) (c : Config) :
    (mergeOneGlobal glob c).workers =
      (if c.global.workers > 0 then c.global.workers else glob.workers) := by
  simp only [mergeOneGlobal]
  split_ifs <;> rfl

theorem mergeOneGlobal_timeout (glob : GlobalConfig) (c : Config) :
    (mergeOneGlobal glob c).timeout =
      (if c.global.timeout > 0 then c.global.timeout else glob.timeout) := by
  simp only [mergeOneGlobal]
  split_ifs <;> rfl

theorem mergeOneGlobal_environment (glob : GlobalConfig) (c : Config) :
    (mergeOneGlobal glob c).environment =
      c.global.environment.foldl (fun acc kv => mapInsert acc kv.1 kv.2)
        glob.environment := by
  simp only [mergeOneGlobal]
  split_ifs <;> rfl

theorem envMergeAll_cons (init : List (String × String))
    (e : List (String × String)) (es : List (List (String × String))) :
    envMergeAll init (e :: es) =
      envMergeAll (e.foldl (fun a kv => mapInsert a kv.1 kv.2) init) es := rfl

theorem mergeConfigLoop_basePath (l : List GraphNode) :
    ∀ (glob : GlobalConfig) (t : List (String × String)),
    (mergeConfigLoop glob t l).1.basePath =
      lastNonEmptyStr glob.basePath (l.filterMap fun n =>
        match n.config with
        | some c => if n.level == 1 then some c.global.basePath else none
        | none => none) := by
  induction l with
  | nil => intro glob t; rfl
  | cons n rest ih =>
    intro glob t
    simp only [mergeConfigLoop]
    split
    · next hc =>
      rw [ih]
      simp [List.filterMap_cons, hc]
    · next c hc =>
      by_cases hl : (n.level == 1) = true
      · rw [ih]
        simp only [List.filterMap_cons, hc, hl, if_pos, lastNonEmptyStr_cons]
        congr 1
        exact mergeOneGlobal_basePath glob c
      · rw [ih]
        have hl2 : ¬ (n.level = 1) := by simpa using hl
        simp [List.filterMap_cons, hc, hl2]

theorem mergeConfigLoop_workers (l : List GraphNode) :
    ∀ (glob : GlobalConfig) (t : List (String × String)),
    (mergeConfigLoop glob t l).1.workers =
      lastPosInt glob.workers (l.filterMap fun n =>
        match n.config with
        | some c => if n.level == 1 then some c.global.workers else none
        | none => none) := by
  induction l with
  | nil => intro glob t; rfl
  | cons n rest ih =>
    intro glob t
    simp only [mergeConfigLoop]
    split
    · next hc =>
      rw [ih]
      simp [List.filterMap_cons, hc]
    · next c hc =>
      by_cases hl : (n.level == 1) = true
      · rw [ih]
        simp only [List.filterMap_cons, hc, hl, if_pos, lastPosInt_cons]
        congr 1
        exact mergeOneGlobal_workers glob c
      · rw [ih]
        have hl2 : ¬ (n.level = 1) := by simpa using hl
        simp [List.filterMap_cons, hc, hl2]

theorem mergeConfigLoop_timeout (l : List GraphNode) :
    ∀ (glob : GlobalConfig) (t : List (String × String)),
    (mergeConfigLoop glob t l).1.timeout =
      lastPosInt glob.timeout (l.filterMap fun n =>
        match n.config with
        | some c => if n.level == 1 then some c.global.timeout else none
        | none => none) := by
  induction l with
  | nil => intro glob t; rfl
  | cons n rest ih =>
    intro glob t
    simp only [mergeConfigLoop]
    split
    · next hc =>
      rw [ih]
      simp [List.filterMap_cons, hc]
    · next c hc =>
      by_cases hl : (n.level == 1) = true
      · rw [ih]
        simp only [List.filterMap_cons, hc, hl, if_pos, lastPosInt_cons]
        congr 1
        exact mergeOneGlobal_timeout glob c
      · rw [ih]
        have hl2 : ¬ (n.level = 1) := by simpa using hl
        simp [List.filterMap_cons, hc, hl2]

theorem mergeConfigLoop_environment (l : List GraphNode) :
    ∀ (glob : GlobalConfig) (t : List (String × String)),
    (mergeConfigLoop glob t l).1.environment =
      envMergeAll glob.environment (l.filterMap fun n =>
        match n.config with
        | some c => if n.level == 1 then some c.global.environment else none
        | none => none) := by
  induction l with
  | nil => intro glob t; rfl
  | cons n rest ih =>
    intro glob t
    simp only [mergeConfigLoop]
    split
    · next hc =>
      rw [ih]
      simp [List.filterMap_cons, hc]
    · next c hc =>
      by_cases hl : (n.level == 1) = true
      · rw [ih]
        simp only [List.filterMap_cons, hc, hl, if_pos, envMergeAll_cons]
        congr 1
        exact mergeOneGlobal_environment glob c
      · rw [ih]
        have hl2 : ¬ (n.level = 1) := by simpa using hl
        simp [List.filterMap_cons, hc, hl2]

/-- C8, counterexample: with two level-1 config nodes supplying base paths
`p1` then `p2`, the merged base path is `p2` - the last non-empty value
wins, not the first as the claim states. -/
theorem claim_c8_counterexample :
    (getMergedConfig gC8).global.basePath = "p2" ∧
    firstNonEmptyStr "" (level1BasePaths gC8) = "p1" ∧
    ("p2" : String) ≠ "p1" :=
  ⟨rfl, rfl, by decide⟩

/-- C8, amended: the merged global settings are taken only from level-1
config nodes, on a last-non-empty-wins (for workers/timeout:
last-positive-wins) basis in iteration order; environments merge key by
key with later level-1 nodes overwriting.  Deeper config nodes never
influence these fields: the characterisations range over level-1 nodes
only, and in the concrete graph `gC8` the level-2 node's base path `p3`
and workers `9` are ignored (the merged workers come from the first
level-1 node, `4`, as the second supplies no positive value). -/
theorem claim_c8 :
    (∀ g : RepositoryGraph,
      (getMergedConfig g).global.basePath =
        lastNonEmptyStr "" (level1BasePaths g) ∧
      (getMergedConfig g).global.workers = lastPosInt 8 (level1Workers g) ∧
      (getMergedConfig g).global.timeout = lastPosInt 300 (level1Timeouts g) ∧
      (getMergedConfig g).global.environment =
        envMergeAll [] (level1Environments g)) ∧
    (getMergedConfig gC8).global.basePath = "p2" ∧
    (getMergedConfig gC8).global.workers = 4 ∧
    (getMergedConfig gC8).global.timeout = 300 := by
  refine ⟨?_, rfl, rfl, rfl⟩
  intro g
  refine ⟨?_, ?_, ?_, ?_⟩
  · exact mergeConfigLoop_basePath _ _ _
  · exact mergeConfigLoop_workers _ _ _
  · exact mergeConfigLoop_timeout _ _ _
  · exact mergeConfigLoop_environment _ _ _

end GoRepos

namespace GoRepos

theorem dedupFirstAux_nodup : ∀ (l seen : List String),
    (dedupFirstAux seen l).Nodup ∧
      ∀ x ∈ dedupFirstAux seen l, seen.contains x = false := by
  intro l
  induction l with
  | nil =>
    intro seen
    simp [dedupFirstAux]
  | cons x rest ih =>
    intro seen
    simp only [dedupFirstAux]
    by_cases hx : seen.contains x = true
    · rw [if_pos hx]
      exact ih seen
    · rw [if_neg hx]
      obtain ⟨hn, hs⟩ := ih (x :: seen)
      refine ⟨?_, ?_⟩
      · apply List.nodup_cons.mpr
        refine ⟨?_, hn⟩
        intro hmem
        have hcf := hs x hmem
        simp at hcf
      · intro y hy
        rcases List.mem_cons.mp hy with hy1 | hy2
        · subst hy1
          simpa using hx
        · have hcf := hs y hy2
          simp only [List.contains_cons] at hcf
          exact (Bool.or_eq_false_iff.mp hcf).2

theorem dedupFirst_nodup (l : List String) : (dedupFirst l).Nodup :=
  (dedupFirstAux_nodup l []).1

theorem mapInsert_mem {α : Type} (m : List (String × α)) (k0 : String)
    (v0 : α) (k : String) (v : α) (h : (k, v) ∈ mapInsert m k0 v0) :
    (k, v) ∈ m ∨ (k = k0 ∧ v = v0) := by
  induction m with
  | nil =>
    simp only [mapInsert, List.mem_singleton] at h
    exact Or.inr (by simpa using h)
  | cons kv rest ih =>
    obtain ⟨a, b⟩ := kv
    simp only [mapInsert] at h
    split at h
    · next heq =>
      rcases List.mem_cons.mp h with h1 | h1
      · subst heq
        obtain ⟨h2, h3⟩ := Prod.mk.injEq .. ▸ h1
        exact Or.inr ⟨by simp [h2], by simp [h3]⟩
      · exact Or.inl (List.mem_cons_of_mem _ h1)
    · rcases List.mem_cons.mp h with h1 | h1
      · exact Or.inl (by simp [h1])
      · rcases ih h1 with h2 | h2
        · exact Or.inl (List.mem_cons_of_mem _ h2)
        · exact Or.inr h2

theorem getGroupsForDisplayLoop_entries (gns l : List GraphNode) :
    ∀ (acc : List (String × List String)) (k : String) (v : List String),
    (k, v) ∈ getGroupsForDisplayLoop gns acc l →
    (k, v) ∈ acc ∨ (v ≠ [] ∧ List.Sorted strLeP v ∧ v.Nodup) := by
  induction l with
  | nil =>
    intro acc k v h
    exact Or.inl h
  | cons gn rest ih =>
    intro acc k v h
    simp only [getGroupsForDisplayLoop] at h
    split at h
    · exact ih acc k v h
    · next gd hg =>
      split at h
      · exact ih acc k v h
      · next hne =>
        rcases ih _ k v h with h1 | h1
        · rcases mapInsert_mem _ _ _ _ _ h1 with h2 | h2
          · exact Or.inl h2
          · refine Or.inr ⟨?_, ?_, ?_⟩
            · rw [h2.2]
              intro hc
              exact hne (by simp [hc])
            · rw [h2.2]
              exact sortStrings_sorted _
            · rw [h2.2]
              exact (sortStrings_perm _).nodup_iff.mpr (dedupFirst_nodup _)
        · exact Or.inr h1

end GoRepos

namespace GoRepos

/-- C9, counterexample: the build holds two group nodes named `g` at the
different scopes `root/w/v` and `root/u/v`, each with one resolved member
(`r1` resp. `r2`), but their display names collide - both prefix the
nearest enclosing segment `v` - so the result map holds a single entry
`v-g` with only the later group's members; the groups do not appear as
distinct entries and the first group's members are missing entirely. -/
theorem claim_c9_counterexample :
    (builtC9c.map fun g => (getNodesByType g .group).map fun n =>
      (n.name, n.fullPath)) = .ok [("g", "root/w/v"), ("g", "root/u/v")] ∧
    (builtC9c.map fun g => (getNodesByType g .group).filterMap fun n =>
      n.group.map GroupDefinition.explicitRepos) = .ok [["r1"], ["r2"]] ∧
    (builtC9c.map getGroupsForDisplay) = .ok [("v-g", ["r2"])] :=
  ⟨rfl, rfl, rfl⟩

/-- C9, amended: every entry of `GetGroupsForDisplay` is a non-empty,
deduplicated, ascending member list (1); display names of name-colliding
non-root groups are prefixed with the nearest enclosing scope segment, so
colliding groups appear as distinct entries only when those segments
differ - in the regular scenario `solo` keeps its name, the root-scope
`g` keeps its name, the nested `g` becomes `v-g`, the `b,a,b` member
list comes out as `["a","b"]`, and the memberless group is omitted (2);
when the prefixed names coincide, the entries collide and only the
last-processed group's members survive (3). -/
theorem claim_c9 :
    (∀ (g : RepositoryGraph) (k : String) (v : List String),
      (k, v) ∈ getGroupsForDisplay g →
      v ≠ [] ∧ List.Sorted strLeP v ∧ v.Nodup) ∧
    (builtC9p.map getGroupsForDisplay) =
      .ok [("solo", ["r1"]), ("g", ["r1"]), ("v-g", ["a", "b"])] ∧
    (builtC9c.map getGroupsForDisplay) = .ok [("v-g", ["r2"])] := by
  refine ⟨?_, rfl, rfl⟩
  intro g k v h
  rcases getGroupsForDisplayLoop_entries _ _ _ k v h with h1 | h1
  · exact absurd h1 (List.not_mem_nil _)
  · exact h1

/-- Witness for C9's entry-shape conjunct at the regular scenario's
`solo` entry. -/
theorem claim_c9_witness :
    (["r1"] : List String) ≠ [] ∧ List.Sorted strLeP ["r1"] ∧
      (["r1"] : List String).Nodup :=
  claim_c9.1 c9WitnessGraph "solo" ["r1"] (by decide)

/-- C10: with two group nodes sharing the name `g` at scopes `root` and
`x` (which the build permits), the rebuilt group-name cache maps `g` to
the later-indexed node `group_x_g` only, while
`GetRepositoriesForGroup "g"` resolves only the first group node in
type-index order (`group_root_g`), returning just `repo_r1` - never the
union with the second group's member `repo_r2`. -/
theorem claim_c10 :
    (builtC10.map fun g => (getNodesByType g .group).map GraphNode.id) =
      .ok ["group_root_g", "group_x_g"] ∧
    (builtC10.map fun g => (getNodesByType g .group).filterMap fun n =>
      n.group.map GroupDefinition.explicitRepos) = .ok [["r1"], ["r2"]] ∧
    (builtC10.map fun g => (g.allGroups.lookup "g").map GraphNode.id) =
      .ok (some "group_x_g") ∧
    (builtC10.map fun g => (getRepositoriesForGroup g "g").map GraphNode.id) =
      .ok ["repo_r1"] :=
  ⟨rfl, rfl, rfl, rfl⟩

end GoRepos

namespace GoRepos

/-- Witness for C7's totality conjunct at the empty graph. -/
theorem claim_c7_witness : ∃ g', processTagsAndLabels emptyGraph = .ok g' :=
  claim_c7.1 emptyGraph

/-- Witness for C8's characterisation at the concrete two-level-1 graph. -/
theorem claim_c8_witness :
    (getMergedConfig gC8).global.basePath =
      lastNonEmptyStr "" (level1BasePaths gC8) :=
  (claim_c8.1 gC8).1

end GoRepos
